import Mathlib

/-!
Drive integration core: channel manager and archive builder.

A shallow embedding of `realtime-sync.js` (class `RealtimeSync`),
`zip-manager.js` (class `ZipManager`), `google-auth.js` (class `GoogleAuth`)
and, of `server.js`, `normalizePath` and the rename route.  Calls to
collaborators (the Drive client, the synchronisation manager, the archiver,
timers, the token table, the storage bucket) are recorded in an effect trace; what a collaborator answers is an argument of the embedded
method.  `console.log` / `console.error` lines are not recorded.
-/

/-! ## JavaScript values held in the manager's fields and in headers -/

/-- The JavaScript values a field of the manager or a header lookup can hold:
`undefined`, `null`, a string or an integer number. -/
inductive JsVal where
  | undefined
  | null
  | str (s : String)
  | num (n : Int)
  deriving DecidableEq, Repr

namespace JsVal

/-- JavaScript truthiness: `undefined`, `null`, `''` and `0` are falsy. -/
def truthy : JsVal → Bool
  | undefined => false
  | null => false
  | str s => s != ""
  | num n => n != 0

end JsVal

/-! ## Numbers -/

/-- A JavaScript number as far as this development follows its value: `NaN`,
a finite number whose value is the integer `n` (always a value a double
holds), or a number whose value is left open (an infinity, or a result the
language leaves to the implementation). -/
inductive JsNumber where
  | nan
  | int (n : Int)
  | untracked
  deriving DecidableEq, Repr

namespace JsNumber

/-- The smallest `k` from the given one on with `m / 2^k < 2^53`, searched for
at most the given number of steps. -/
def shiftFor (m : Nat) : Nat → Nat → Nat
  | 0, k => k
  | fuel + 1, k => if m / 2 ^ k < 2 ^ 53 then k else shiftFor m fuel (k + 1)

/-- The double nearest to an integer, ties going to the even mantissa (the
rounding of every arithmetic operation and conversion); an integer below
`2^53` in absolute value is a double itself.  Meant for integers below
`2^1024` in absolute value. -/
def roundDouble (n : Int) : Int :=
  let m := n.natAbs
  if m < 2 ^ 53 then n
  else
    let k := shiftFor m 1024 1
    let q := m / 2 ^ k
    let r := m % 2 ^ k
    let half := 2 ^ (k - 1)
    let q1 := if r > half ∨ (r = half ∧ q % 2 = 1) then q + 1 else q
    if n < 0 then -((q1 * 2 ^ k : Nat) : Int) else ((q1 * 2 ^ k : Nat) : Int)

/-- The bound `2^1024`, from which on a rounded result is an infinity. -/
def overflow : Nat :=
  179769313486231590772930519078902473361797697894230657273430081157732675805500963132708477322407536021120113879871393357658789768814416622492847430639474124377767893424865485276302219601246094119453082952085005768838150682342462881473913110540827237163350510684586298239947245938479716304835356329624224137216

/-- The number an exact integer result becomes: rounded to a double, and left
open when the rounding overflows to an infinity. -/
def ofInt (z : Int) : JsNumber :=
  if (roundDouble z).natAbs < overflow then int (roundDouble z) else untracked

/-- The difference `x - b` for an integer `b` that is a double. -/
def sub (x : JsNumber) (b : Int) : JsNumber :=
  match x with
  | nan => nan
  | int a => ofInt (a - b)
  | untracked => untracked

end JsNumber

/-! ## realtime-sync.js -/

/-- Calls the channel manager makes on its collaborators. -/
inductive Effect where
  /-- Call `drive.files.watch({fileId, requestBody: {id, type: 'web_hook', address, expiration}})`. -/
  | filesWatch (fileId : JsVal) (id : String) (address : JsVal) (expiration : Int)
  /-- Call `drive.channels.stop({requestBody: {id, resourceId}})`. -/
  | channelsStop (id resourceId : JsVal)
  /-- Call `syncManager.syncNow()`. -/
  | syncNow
  /-- Call `clearInterval(handle)`. -/
  | clearInterval (handle : JsVal)
  /-- Call `setTimeout(renewal, delay)`. -/
  | setTimeout (delay : JsNumber)
  deriving DecidableEq, Repr

/-- The mutable fields of a `RealtimeSync` object (the constructor's
collaborators `driveClient`, `supabase`, `syncManager` are passed to the
methods as the answers they give). -/
structure RealtimeSync where
  channelId : JsVal
  resourceId : JsVal
  expiration : JsVal
  watchInterval : JsVal
  deriving DecidableEq, Repr

/-- The body of `response.data` of a successful `drive.files.watch` call. -/
structure WatchData where
  id : JsVal
  resourceId : JsVal
  expiration : JsVal
  deriving DecidableEq, Repr

/-- The three readings of `Date.now()` made by one successful
`setupPushNotifications` call, in program order: for the channel id, for the
requested expiration, and inside `scheduleRenewal`. -/
structure Clock where
  nowId : Int
  nowExpiration : Int
  nowRenewal : Int
  deriving DecidableEq, Repr

/-- What a method leaves behind: the new fields, the calls it made, in order,
and its completion (`Except.error` is a thrown error / rejected promise). -/
structure Outcome (α : Type) where
  state : RealtimeSync
  effects : List Effect
  result : Except String α

namespace RealtimeSync

/-- The fields set by the constructor. -/
def new : RealtimeSync :=
  { channelId := .null, resourceId := .null, expiration := .null, watchInterval := .null }

/-- Value of a digit character in radix 16 (decimal digits included). -/
def digitVal (c : Char) : Nat :=
  if c.isDigit then c.toNat - 48
  else if 97 ≤ c.toNat ∧ c.toNat ≤ 102 then c.toNat - 87
  else c.toNat - 55

/-- Whether a character is a hexadecimal digit. -/
def isHexDigit (c : Char) : Bool :=
  c.isDigit || (97 ≤ c.toNat && c.toNat ≤ 102) || (65 ≤ c.toNat && c.toNat ≤ 70)

/-- White space and line terminators, which `parseInt` skips at the start of
a string. -/
def isJsSpace (c : Char) : Bool :=
  let n := c.toNat
  n == 9 || n == 10 || n == 11 || n == 12 || n == 13 || n == 32 || n == 160 ||
    n == 5760 || (8192 ≤ n && n ≤ 8202) || n == 8232 || n == 8233 || n == 8239 ||
    n == 8287 || n == 12288 || n == 65279

/-- The integer the digits `ds` denote in the given radix. -/
def digitsValue (radix : Nat) (ds : List Char) : Nat :=
  ds.foldl (fun acc c => radix * acc + digitVal c) 0

/-- Whether the language fixes the value of a decimal digit string: digits
after the 20th significant one may be read as `0` by the implementation, so
the value is fixed when they are all `0`. -/
def decimalFixed (ds : List Char) : Bool :=
  ((ds.dropWhile (· == '0')).drop 20).all (· == '0')

/-- The number `parseInt` makes of a sign and the digits read. -/
def parsedNumber (negative : Bool) (radix : Nat) (ds : List Char) : JsNumber :=
  if ds.isEmpty then .nan
  else if radix = 10 ∧ decimalFixed ds = false then .untracked
  else
    JsNumber.ofInt
      (if negative then -(digitsValue radix ds : Int) else (digitsValue radix ds : Int))

/-- Function `parseInt` without a radix on a string: leading white space is
skipped, then an optional sign, then after `0x` or `0X` the hexadecimal
digits, otherwise the decimal digits, are read up to the first other
character; no digit gives `NaN`, and the integer read is rounded to a
double. -/
def parseIntStr (s : String) : JsNumber :=
  let cs := s.toList.dropWhile isJsSpace
  let signed : Bool × List Char :=
    match cs with
    | '-' :: r => (true, r)
    | '+' :: r => (false, r)
    | _ => (false, cs)
  match signed.2 with
  | '0' :: 'x' :: r => parsedNumber signed.1 16 (r.takeWhile isHexDigit)
  | '0' :: 'X' :: r => parsedNumber signed.1 16 (r.takeWhile isHexDigit)
  | r => parsedNumber signed.1 10 (r.takeWhile Char.isDigit)

/-- The integer `m` without its trailing decimal zeros, searched for at most
the given number of steps. -/
def stripTens (m : Nat) : Nat → Nat
  | 0 => m
  | fuel + 1 => if m ≠ 0 ∧ m % 10 = 0 then stripTens (m / 10) fuel else m

/-- Function `parseInt` on an integer number: the number is first converted
to a string.  Below `10^21` the string is the decimal form, which reads back
as the number.  From `10^21` on the string is in exponent form (`1e+21`,
`1.5e+21`) and `parseInt` reads its first digit only; the value is followed
here when the number is a single digit times a power of ten. -/
def parseIntNum (n : Int) : JsNumber :=
  let v := JsNumber.roundDouble n
  if v.natAbs < 10 ^ 21 then JsNumber.ofInt v
  else if JsNumber.overflow ≤ v.natAbs then .untracked
  else
    let d := stripTens v.natAbs 400
    if d < 10 then .int (if v < 0 then -(d : Int) else (d : Int)) else .untracked

/-- Function `parseInt(v)`: the argument is first converted to a string, so
`undefined` and `null` give `NaN`. -/
def parseInt : JsVal → JsNumber
  | .undefined => .nan
  | .null => .nan
  | .str s => parseIntStr s
  | .num n => parseIntNum n

/-- Method `scheduleRenewal()`: clears `watchInterval` when it is truthy, then sets
one timer `parseInt(this.expiration) - Date.now() - 24h` from now.  `now` is
the reading of `Date.now()`, a time value (so a double). -/
def scheduleRenewal (self : RealtimeSync) (now : Int) : List Effect :=
  let cleared : List Effect :=
    if self.watchInterval.truthy then [Effect.clearInterval self.watchInterval] else []
  let renewTime : JsNumber :=
    ((parseInt self.expiration).sub now).sub (24 * 60 * 60 * 1000)
  cleared ++ [Effect.setTimeout renewTime]

/-- Method `setupPushNotifications(webhookUrl)`.  `watch` is what `drive.files.watch`
answers (`Except.error` when the call, or reading `response.data`, throws). -/
def setupPushNotifications (self : RealtimeSync) (rootFolderId : JsVal) (webhookUrl : JsVal)
    (clock : Clock) (watch : Except String WatchData) : Outcome Bool :=
  let call : Effect :=
    Effect.filesWatch rootFolderId ("channel-" ++ toString clock.nowId) webhookUrl
      (clock.nowExpiration + 7 * 24 * 60 * 60 * 1000)
  match watch with
  | .ok data =>
      let self1 : RealtimeSync :=
        { self with channelId := data.id, resourceId := data.resourceId,
                    expiration := data.expiration }
      { state := self1
        effects := call :: scheduleRenewal self1 clock.nowRenewal
        result := .ok true }
  | .error _ =>
      { state := self, effects := [call], result := .ok false }

/-- Method `stopPushNotifications()`.  `stop` is what `drive.channels.stop` answers. -/
def stopPushNotifications (self : RealtimeSync) (stop : Except String Unit) : Outcome Unit :=
  if !self.channelId.truthy || !self.resourceId.truthy then
    { state := self, effects := [], result := .ok () }
  else
    match stop with
    | .ok _ =>
        { state := self, effects := [Effect.channelsStop self.channelId self.resourceId],
          result := .ok () }
    | .error _ =>
        { state := self, effects := [Effect.channelsStop self.channelId self.resourceId],
          result := .ok () }

/-- Method `handleNotification(headers)`.  `headers` maps a header name to its value
(`undefined` when absent); `sync` is how `syncManager.syncNow()` completes. -/
def handleNotification (self : RealtimeSync) (headers : String → JsVal)
    (sync : Except String Unit) : Outcome Unit :=
  let channelId := headers "x-goog-channel-id"
  let resourceState := headers "x-goog-resource-state"
  if channelId ≠ self.channelId then
    { state := self, effects := [], result := .ok () }
  else if resourceState = .str "change" ∨ resourceState = .str "sync" then
    { state := self, effects := [Effect.syncNow], result := sync }
  else
    { state := self, effects := [], result := .ok () }

/-- The callback armed by `scheduleRenewal`: `stopPushNotifications()` and then
`setupPushNotifications(process.env.WEBHOOK_URL)`. -/
def renewal (self : RealtimeSync) (rootFolderId : JsVal) (envWebhookUrl : JsVal)
    (clock : Clock) (stop : Except String Unit) (watch : Except String WatchData) :
    Outcome Bool :=
  let stopped := stopPushNotifications self stop
  let started := setupPushNotifications stopped.state rootFolderId envWebhookUrl clock watch
  { state := started.state, effects := stopped.effects ++ started.effects,
    result := started.result }

/-- The manager holds a channel: both identifiers are truthy. -/
def Active (self : RealtimeSync) : Prop :=
  self.channelId.truthy = true ∧ self.resourceId.truthy = true

/-- The manager holds no channel. -/
def Unregistered (self : RealtimeSync) : Prop :=
  self.channelId = .null ∧ self.resourceId = .null

instance (self : RealtimeSync) : Decidable (Active self) := by
  unfold Active; infer_instance

instance (self : RealtimeSync) : Decidable (Unregistered self) := by
  unfold Unregistered; infer_instance

end RealtimeSync

/-! ## zip-manager.js -/

/-- One element of `response.data.files` of `drive.files.list`
(`fields: 'files(id, name, mimeType)'`). -/
structure DriveFile where
  id : String
  name : String
  mimeType : String
  deriving DecidableEq, Repr

/-- One element of the array `getAllFilesInFolder` returns. -/
structure FileEntry where
  id : String
  name : String
  path : String
  mimeType : String
  deriving DecidableEq, Repr

/-- What `driveClient.getFile(id)` resolves to; only `name` is read. -/
structure FileInfo where
  name : String
  deriving DecidableEq, Repr

/-- The readable stream `driveClient.downloadFile(id)` resolves to, as the
content it carries. -/
abbrev ReadStream := String

/-- The answers of the Drive client, by id (`Except.error` is a thrown error /
rejected promise).  `list folderId` is `response.data.files` of the
`drive.files.list` call with
`q = "'folderId' in parents and trashed=false"`, `none` when that field is
missing. -/
structure DriveClient where
  getFile : String → Except String FileInfo
  downloadFile : String → Except String ReadStream
  list : String → Except String (Option (List DriveFile))

/-- Calls the archive builder makes on the Drive client and the archiver. -/
inductive ZipEffect where
  /-- Call `driveClient.getFile(id)`. -/
  | getFile (id : String)
  /-- Call `driveClient.downloadFile(id)`. -/
  | downloadFile (id : String)
  /-- Call `archive.append(stream, { name })`. -/
  | append (name : String) (stream : ReadStream)
  /-- Call `archive.finalize()`. -/
  | finalize
  deriving DecidableEq, Repr

/-- An entry of the archive: the name it was appended under and its content. -/
structure ZipEntry where
  name : String
  content : ReadStream
  deriving DecidableEq, Repr

/-- The archiver library, which is not part of the repository, as far as an
archive job depends on it. -/
structure Archiver where
  /-- How `archive.append(stream, { name })` takes an entry: the entry the
  archive then holds (the library may rewrite the name), or the error the
  archive emits instead (for an empty name, or when the stream fails). -/
  accept : String → ReadStream → Except String ZipEntry
  /-- How `archive.finalize()` completes for the entries held; an error is a
  rejection of the awaited call. -/
  finalize : List ZipEntry → Except String Unit

/-- The archive of a job together with the state of the job's promise: the
entries the archive holds, in order, and the first error the archive has
emitted, with which `archive.on('error', reject)` has rejected the promise. -/
structure Archive where
  entries : List ZipEntry
  rejected : Option String
  deriving DecidableEq, Repr

/-- What an archive job leaves behind: the calls it made, in order, and how
the promise settles: it resolves with the buffer of the finalized archive,
given as the entries it holds, in order, or it is rejected. -/
structure ZipOutcome where
  effects : List ZipEffect
  result : Except String (List ZipEntry)

namespace Archive

/-- The archive and the promise at the start of a job. -/
def empty : Archive := { entries := [], rejected := none }

/-- One `archive.append(stream, { name })`: the archive takes the entry, or
emits an error; the listener `reject` then rejects the promise, and a promise
that is already rejected stays as it is.  The call itself returns. -/
def append (archiver : Archiver) (archive : Archive) (name : String) (stream : ReadStream) :
    Archive :=
  match archiver.accept name stream with
  | .ok entry => { archive with entries := archive.entries ++ [entry] }
  | .error e =>
      match archive.rejected with
      | some _ => archive
      | none => { archive with rejected := some e }

/-- The end of a job: `await archive.finalize()`.  A promise the `error`
listener has rejected stays rejected; a failing `finalize` rejects it through
the outer `catch`; otherwise the `end` event resolves it with the buffer. -/
def settle (archiver : Archiver) (archive : Archive) : Except String (List ZipEntry) :=
  match archive.rejected with
  | some e => .error e
  | none =>
      match archiver.finalize archive.entries with
      | .error e => .error e
      | .ok _ => .ok archive.entries

/-- The archive after the given `append` calls, each given by its name and
stream. -/
def appendAll (archiver : Archiver) (archive : Archive) (calls : List ZipEntry) : Archive :=
  calls.foldl (fun a call => a.append archiver call.name call.content) archive

end Archive

namespace ZipManager

/-- The mime type of a folder. -/
def folderMimeType : String := "application/vnd.google-apps.folder"

/-- The loop of `createZip`: for each id a `try` block that gets the file's
information, downloads it and appends it; a throw leaves the block. The
accumulator holds the calls made and the archive so far. -/
def createZipLoop (dc : DriveClient) (archiver : Archiver) :
    List String → List ZipEffect × Archive → List ZipEffect × Archive
  | [], acc => acc
  | fileId :: rest, (effects, archive) =>
      match dc.getFile fileId with
      | .error _ =>
          createZipLoop dc archiver rest (effects ++ [ZipEffect.getFile fileId], archive)
      | .ok fileInfo =>
          match dc.downloadFile fileId with
          | .error _ =>
              createZipLoop dc archiver rest
                (effects ++ [ZipEffect.getFile fileId, ZipEffect.downloadFile fileId], archive)
          | .ok stream =>
              createZipLoop dc archiver rest
                (effects ++ [ZipEffect.getFile fileId, ZipEffect.downloadFile fileId,
                              ZipEffect.append fileInfo.name stream],
                 archive.append archiver fileInfo.name stream)

/-- Method `createZip(fileIds)`: the loop, then `archive.finalize()`. -/
def createZip (dc : DriveClient) (archiver : Archiver) (fileIds : List String) : ZipOutcome :=
  let done := createZipLoop dc archiver fileIds ([], Archive.empty)
  { effects := done.1 ++ [ZipEffect.finalize], result := done.2.settle archiver }

/-- The loop of `getAllFilesInFolder` over the listed files; `recur` is the
recursive call `this.getAllFilesInFolder(file.id, filePath)` (`none`: it does
not return). -/
def getAllFilesLoop (recur : String → String → Option (Except String (List FileEntry)))
    (basePath : String) :
    List DriveFile → List FileEntry → Option (Except String (List FileEntry))
  | [], results => some (.ok results)
  | file :: rest, results =>
      let filePath := if basePath ≠ "" then basePath ++ "/" ++ file.name else file.name
      if file.mimeType = folderMimeType then
        match recur file.id filePath with
        | none => none
        | some (.error e) => some (.error e)
        | some (.ok subFiles) => getAllFilesLoop recur basePath rest (results ++ subFiles)
      else
        getAllFilesLoop recur basePath rest
          (results ++ [{ id := file.id, name := file.name, path := filePath,
                         mimeType := file.mimeType }])

/-- Method `getAllFilesInFolder(folderId, basePath)`.  The first argument
bounds the depth of the recursion; `none` means the bound was reached. -/
def getAllFilesInFolder (dc : DriveClient) :
    Nat → String → String → Option (Except String (List FileEntry))
  | 0, _, _ => none
  | fuel + 1, folderId, basePath =>
      match dc.list folderId with
      | .error e => some (.error e)
      | .ok files => getAllFilesLoop (getAllFilesInFolder dc fuel) basePath (files.getD []) []

/-- The loop of `createFolderZip` over the enumerated files. -/
def createFolderZipLoop (dc : DriveClient) (archiver : Archiver) :
    List FileEntry → List ZipEffect × Archive → List ZipEffect × Archive
  | [], acc => acc
  | file :: rest, (effects, archive) =>
      if file.mimeType ≠ folderMimeType then
        match dc.downloadFile file.id with
        | .error _ =>
            createFolderZipLoop dc archiver rest
              (effects ++ [ZipEffect.downloadFile file.id], archive)
        | .ok stream =>
            createFolderZipLoop dc archiver rest
              (effects ++ [ZipEffect.downloadFile file.id, ZipEffect.append file.path stream],
               archive.append archiver file.path stream)
      else
        createFolderZipLoop dc archiver rest (effects, archive)

/-- Method `createFolderZip(folderId)`: enumerate (a throw there rejects the
promise through the outer `catch`), run the loop, finalize.  The first
argument bounds the depth of the enumeration; `none` means the bound was
reached. -/
def createFolderZip (dc : DriveClient) (archiver : Archiver) (fuel : Nat)
    (folderId : String) : Option ZipOutcome :=
  match getAllFilesInFolder dc fuel folderId "" with
  | none => none
  | some (.error e) => some { effects := [], result := .error e }
  | some (.ok files) =>
      let done := createFolderZipLoop dc archiver files ([], Archive.empty)
      some { effects := done.1 ++ [ZipEffect.finalize], result := done.2.settle archiver }

end ZipManager

/-! ## Folder trees

The remote tree the enumeration walks, and what the specification says the
enumeration yields for it. -/

/-- A finite remote tree node: a leaf file or a folder with its children in
listing order. -/
inductive Node where
  | file (id name mimeType : String)
  | folder (id name : String) (children : List Node)
  deriving Repr

/-- A leaf file of a tree with the names of the folders above it, from the
root's child down to the file's parent. -/
structure Leaf where
  id : String
  name : String
  mimeType : String
  folders : List String
  deriving DecidableEq, Repr

namespace Leaf

/-- The relative path of a leaf: the names of the folders above it and its
own name, joined by `/`. -/
def path (l : Leaf) : String := String.intercalate "/" (l.folders ++ [l.name])

/-- The entry the enumeration is to return for a leaf. -/
def toEntry (l : Leaf) : FileEntry :=
  { id := l.id, name := l.name, path := l.path, mimeType := l.mimeType }

/-- The listed file a leaf stands for: its id, name and mime type. -/
def file (l : Leaf) : DriveFile :=
  { id := l.id, name := l.name, mimeType := l.mimeType }

end Leaf

/-- The listed file an entry of the enumeration was made from: its id, name
and mime type. -/
def FileEntry.file (e : FileEntry) : DriveFile :=
  { id := e.id, name := e.name, mimeType := e.mimeType }

namespace Node

/-- The record `drive.files.list` returns for a node. -/
def toDriveFile : Node → DriveFile
  | file id name mimeType => { id := id, name := name, mimeType := mimeType }
  | folder id name _ => { id := id, name := name, mimeType := ZipManager.folderMimeType }

mutual
/-- Number of folder levels below and including a node. -/
def depth : Node → Nat
  | file _ _ _ => 0
  | folder _ _ children => depthList children + 1
/-- The largest depth among a list of nodes. -/
def depthList : List Node → Nat
  | [] => 0
  | c :: cs => max (depth c) (depthList cs)
end

mutual
/-- The leaf files under a node in depth-first order, following each folder's
listing order; `above` holds the names of the folders above the node. -/
def leaves (above : List String) : Node → List Leaf
  | file id name mimeType =>
      [{ id := id, name := name, mimeType := mimeType, folders := above }]
  | folder _ name children => leavesList (above ++ [name]) children
/-- The leaf files under a list of sibling nodes, in order. -/
def leavesList (above : List String) : List Node → List Leaf
  | [] => []
  | c :: cs => leaves above c ++ leavesList above cs
end

mutual
/-- The Drive client lists the tree: a leaf file does not carry the folder
mime type, and listing a folder of the tree returns all its children, in
order. -/
def ListedBy (dc : DriveClient) : Node → Prop
  | file _ _ mimeType => mimeType ≠ ZipManager.folderMimeType
  | folder id _ children =>
      dc.list id = .ok (some (children.map toDriveFile)) ∧ ListedByList dc children
/-- Every node of the list is listed by the Drive client. -/
def ListedByList (dc : DriveClient) : List Node → Prop
  | [] => True
  | c :: cs => ListedBy dc c ∧ ListedByList dc cs
end

mutual
/-- Every node at or below the node has a non-empty name. -/
def NamesNonEmpty : Node → Prop
  | file _ name _ => name ≠ ""
  | folder _ name children => name ≠ "" ∧ NamesNonEmptyList children
/-- Every node at or below a node of the list has a non-empty name. -/
def NamesNonEmptyList : List Node → Prop
  | [] => True
  | c :: cs => NamesNonEmpty c ∧ NamesNonEmptyList cs
end

end Node

/-! ## Reading a trace -/

namespace ZipEffect

/-- The entries appended to the archive by a trace, in order. -/
def appended (effects : List ZipEffect) : List ZipEntry :=
  effects.filterMap fun
    | append name stream => some { name := name, content := stream }
    | _ => none

/-- The ids `getFile` was called with, in order. -/
def getFileCalls (effects : List ZipEffect) : List String :=
  effects.filterMap fun
    | getFile id => some id
    | _ => none

/-- The ids `downloadFile` was called with, in order. -/
def downloadFileCalls (effects : List ZipEffect) : List String :=
  effects.filterMap fun
    | downloadFile id => some id
    | _ => none

/-- The archive was finalized: `finalize` is the last call and the only one
of its kind. -/
def Finalized (effects : List ZipEffect) : Prop :=
  effects.getLast? = some finalize ∧ effects.count finalize = 1

end ZipEffect

namespace DriveClient

/-- An id fails when `getFile` or `downloadFile` throws for it. -/
def fails (dc : DriveClient) (id : String) : Bool :=
  !(dc.getFile id).isOk || !(dc.downloadFile id).isOk

/-- The entry an id for which both calls succeed is to be archived as: the
bare name `getFile` returns and the downloaded content. -/
def fetched (dc : DriveClient) (id : String) : Option ZipEntry :=
  match dc.getFile id, dc.downloadFile id with
  | .ok info, .ok stream => some { name := info.name, content := stream }
  | _, _ => none

/-- The entry an enumerated file whose download succeeds is to be archived
as: its relative path and the downloaded content. -/
def downloaded (dc : DriveClient) (file : FileEntry) : Option ZipEntry :=
  match dc.downloadFile file.id with
  | .ok stream => some { name := file.path, content := stream }
  | .error _ => none

end DriveClient

namespace Node

mutual
/-- Number of leaf files at or below a node. -/
def leafCount : Node → Nat
  | file _ _ _ => 1
  | folder _ _ children => leafCountList children
/-- Number of leaf files at or below the nodes of a list. -/
def leafCountList : List Node → Nat
  | [] => 0
  | c :: cs => leafCount c + leafCountList cs
end

end Node

/-! ## Example data -/

namespace Example

/-- A manager holding the channel `channel-1`. -/
def active : RealtimeSync :=
  { channelId := .str "channel-1", resourceId := .str "res-1",
    expiration := .str "1700000000000", watchInterval := .null }

/-- Headers of a notification for the given channel and resource state. -/
def headers (channel state : JsVal) : String → JsVal := fun key =>
  if key = "x-goog-channel-id" then channel
  else if key = "x-goog-resource-state" then state
  else .undefined

/-- Clock readings of one `setupPushNotifications` call. -/
def clock : Clock := { nowId := 1000, nowExpiration := 1000, nowRenewal := 1001 }

/-- The children of the root of the tree `root/A/x.txt`, `root/B/y.txt`. -/
def children : List Node :=
  [.folder "a" "A" [.file "x" "x.txt" "text/plain"],
   .folder "b" "B" [.file "y" "y.txt" "text/plain"]]

/-- A Drive client listing the folder `root` with the children above; the
download of `y` fails. -/
def drive : DriveClient :=
  { getFile := fun id =>
      if id = "x" then .ok { name := "x.txt" }
      else if id = "y" then .ok { name := "y.txt" }
      else .error "not found"
    downloadFile := fun id =>
      if id = "x" then .ok "content of x" else .error "download failed"
    list := fun id =>
      if id = "root" then
        .ok (some [{ id := "a", name := "A", mimeType := ZipManager.folderMimeType },
                   { id := "b", name := "B", mimeType := ZipManager.folderMimeType }])
      else if id = "a" then .ok (some [{ id := "x", name := "x.txt", mimeType := "text/plain" }])
      else if id = "b" then .ok (some [{ id := "y", name := "y.txt", mimeType := "text/plain" }])
      else .ok none }

end Example

/-! ## Reading a trace of the channel manager -/

namespace Effect

/-- The delays of the timers a trace sets, in order. -/
def timers (effects : List Effect) : List JsNumber :=
  effects.filterMap fun
    | setTimeout delay => some delay
    | _ => none

/-- The handles a trace cancels with `clearInterval`, in order. -/
def cancelled (effects : List Effect) : List JsVal :=
  effects.filterMap fun
    | clearInterval handle => some handle
    | _ => none

/-- The addresses of the `files.watch` registrations of a trace, in order. -/
def watchAddresses (effects : List Effect) : List JsVal :=
  effects.filterMap fun
    | filesWatch _ _ address _ => some address
    | _ => none

/-- The requested expirations of the `files.watch` registrations of a trace,
in order. -/
def watchExpirations (effects : List Effect) : List Int :=
  effects.filterMap fun
    | filesWatch _ _ _ expiration => some expiration
    | _ => none

end Effect

/-! ## google-auth.js -/

/-- A token set as the provider returns it and as the OAuth2 client holds it
in `credentials`.  For `expiry_date`, `none` is a missing field or `NaN`
(the source treats both alike). -/
structure Tokens where
  access_token : JsVal
  refresh_token : JsVal
  expiry_date : Option Int
  deriving DecidableEq, Repr

/-- The OAuth2 client of the provider's library, as the credentials it holds. -/
structure OAuth2Client where
  credentials : Tokens
  deriving DecidableEq, Repr

/-- The mutable part of a `GoogleAuth` object. -/
structure GoogleAuth where
  oauth2Client : OAuth2Client
  deriving DecidableEq, Repr

/-- A row of the table `google_tokens`.  `expires_at` is the instant (in
milliseconds) that `new Date(data.expires_at).getTime()` reads from the
column, `none` when it reads `NaN`. -/
structure TokenRow where
  access_token : JsVal
  refresh_token : JsVal
  expires_at : Option Int
  deriving DecidableEq, Repr

/-- The table `google_tokens`: its rows in the order of `created_at`, the
most recent one last. -/
abbrev TokenStore := List TokenRow

/-- How the store answers an `insert`: the row is stored, the store refuses
it and resolves with an error object (which the source does not look at), or
the awaited call rejects. -/
inductive InsertAnswer where
  | stored
  | refused (error : String)
  | thrown (error : String)
  deriving DecidableEq, Repr

/-- Calls the credential manager makes on the provider and on the store. -/
inductive AuthEffect where
  /-- Call `oauth2Client.getToken(code)`. -/
  | getToken (code : String)
  /-- Call `oauth2Client.refreshAccessToken()`. -/
  | refreshAccessToken
  /-- Call `supabase.from('google_tokens').insert(row)`. -/
  | insert (row : TokenRow)
  /-- Query `select('*').order('created_at', desc).limit(1).single()`. -/
  | selectLatest
  deriving DecidableEq, Repr

/-- What the collaborators answer during one call of `loadToken` or
`isAuthenticated`, in program order. -/
structure AuthEnv where
  /-- The error of the query when it fails for a reason of its own. -/
  queryError : Option String
  /-- The reading of `Date.now()` in the expiry check of `loadToken`. -/
  nowLoad : Int
  /-- The answer of `oauth2Client.refreshAccessToken()`. -/
  refresh : Except String Tokens
  /-- The reading of `Date.now()` in `saveToken`. -/
  nowSave : Int
  /-- The answer of the store to the insert of `saveToken`. -/
  insert : InsertAnswer

/-- What a method of the credential manager leaves behind: the manager, the
table, the calls made, in order, and the completion (`Except.error` is a
thrown error / rejected promise). -/
structure AuthOutcome (α : Type) where
  auth : GoogleAuth
  store : TokenStore
  effects : List AuthEffect
  result : Except String α

namespace GoogleAuth

/-- The manager after the constructor: the client holds the empty
credentials `{}`. -/
def new : GoogleAuth :=
  { oauth2Client :=
      { credentials :=
          { access_token := .undefined, refresh_token := .undefined, expiry_date := none } } }

/-- Method `oauth2Client.setCredentials(tokens)`. -/
def setCredentials (self : GoogleAuth) (tokens : Tokens) : GoogleAuth :=
  { self with oauth2Client := { credentials := tokens } }

/-- The largest time value a `Date` holds; beyond it `toISOString()` throws a
`RangeError`. -/
def maxTimeValue : Int := 8640000000000000

/-- The value a column takes for a field of the inserted object: a field that
is `undefined` is left out of the request and the column is `null`. -/
def column : JsVal → JsVal
  | .undefined => .null
  | v => v

/-- The query of `loadToken`: `(data, error)`.  `single()` answers with an
error and no data when the table has no row. -/
def selectLatest (store : TokenStore) (queryError : Option String) :
    Option TokenRow × Option String :=
  match queryError with
  | some e => (none, some e)
  | none =>
      match store.getLast? with
      | none => (none, some "PGRST116")
      | some row => (some row, none)

/-- Method `saveToken(tokens)`: the row's expiry is
`Date.now() + (tokens.expiry_date || 3600000)`. -/
def saveToken (self : GoogleAuth) (store : TokenStore) (tokens : Tokens) (now : Int)
    (answer : InsertAnswer) : AuthOutcome Unit :=
  let lifetime : Int :=
    match tokens.expiry_date with
    | some e => if e ≠ 0 then e else 3600000
    | none => 3600000
  let expiresAt : Int := now + lifetime
  if expiresAt.natAbs > maxTimeValue.natAbs then
    { auth := self, store := store, effects := [],
      result := .error "RangeError: Invalid time value" }
  else
    let sent : TokenRow :=
      { access_token := tokens.access_token, refresh_token := tokens.refresh_token,
        expires_at := some expiresAt }
    match answer with
    | .stored =>
        { auth := self
          store := store ++ [{ access_token := column tokens.access_token,
                               refresh_token := column tokens.refresh_token,
                               expires_at := some expiresAt }]
          effects := [AuthEffect.insert sent], result := .ok () }
    | .refused _ =>
        { auth := self, store := store, effects := [AuthEffect.insert sent], result := .ok () }
    | .thrown e =>
        { auth := self, store := store, effects := [AuthEffect.insert sent], result := .error e }

/-- Method `getTokenFromCode(code)`.  `exchange` is what
`oauth2Client.getToken(code)` answers. -/
def getTokenFromCode (self : GoogleAuth) (store : TokenStore) (code : String)
    (exchange : Except String Tokens) (now : Int) (answer : InsertAnswer) :
    AuthOutcome Tokens :=
  match exchange with
  | .error e =>
      { auth := self, store := store, effects := [AuthEffect.getToken code], result := .error e }
  | .ok tokens =>
      let saved := saveToken (self.setCredentials tokens) store tokens now answer
      { auth := saved.auth, store := saved.store
        effects := AuthEffect.getToken code :: saved.effects
        result := saved.result.map fun _ => tokens }

/-- Method `getClient()`. -/
def getClient (self : GoogleAuth) : OAuth2Client := self.oauth2Client

/-- Method `refreshToken()`.  `refresh` is what
`oauth2Client.refreshAccessToken()` answers. -/
def refreshToken (self : GoogleAuth) (store : TokenStore) (refresh : Except String Tokens)
    (now : Int) (answer : InsertAnswer) : AuthOutcome Tokens :=
  match refresh with
  | .error e =>
      { auth := self, store := store, effects := [AuthEffect.refreshAccessToken],
        result := .error e }
  | .ok credentials =>
      let saved := saveToken (self.setCredentials credentials) store credentials now answer
      { auth := saved.auth, store := saved.store
        effects := AuthEffect.refreshAccessToken :: saved.effects
        result := saved.result.map fun _ => credentials }

/-- The test `Date.now() >= tokens.expiry_date`; it is false for `NaN`. -/
def expired (now : Int) (expiry_date : Option Int) : Bool :=
  match expiry_date with
  | some e => decide (now ≥ e)
  | none => false

/-- Method `loadToken()`. -/
def loadToken (self : GoogleAuth) (store : TokenStore) (env : AuthEnv) : AuthOutcome Bool :=
  match selectLatest store env.queryError with
  | (_, some _) =>
      { auth := self, store := store, effects := [AuthEffect.selectLatest], result := .ok false }
  | (none, none) =>
      { auth := self, store := store, effects := [AuthEffect.selectLatest], result := .ok false }
  | (some data, none) =>
      let tokens : Tokens :=
        { access_token := data.access_token, refresh_token := data.refresh_token,
          expiry_date := data.expires_at }
      let self1 := self.setCredentials tokens
      if expired env.nowLoad tokens.expiry_date then
        let refreshed := refreshToken self1 store env.refresh env.nowSave env.insert
        { auth := refreshed.auth, store := refreshed.store
          effects := AuthEffect.selectLatest :: refreshed.effects
          result := refreshed.result.map fun _ => true }
      else
        { auth := self1, store := store, effects := [AuthEffect.selectLatest],
          result := .ok true }

/-- Method `isAuthenticated()`. -/
def isAuthenticated (self : GoogleAuth) (store : TokenStore) (env : AuthEnv) :
    AuthOutcome Bool :=
  if self.oauth2Client.credentials.access_token.truthy then
    { auth := self, store := store, effects := [], result := .ok true }
  else
    loadToken self store env

/-- Consecutive calls of `isAuthenticated()`, one for each element of `envs`:
the manager and the store after the last call, all calls made, and the
results of the calls in order. -/
def isAuthenticatedCalls (self : GoogleAuth) (store : TokenStore) :
    List AuthEnv → GoogleAuth × TokenStore × List AuthEffect × List (Except String Bool)
  | [] => (self, store, [], [])
  | env :: rest =>
      let out := isAuthenticated self store env
      let later := isAuthenticatedCalls out.auth out.store rest
      (later.1, later.2.1, out.effects ++ later.2.2.1, out.result :: later.2.2.2)

end GoogleAuth

namespace Example

/-- A stored row that expired at time 1000. -/
def expiredRow : TokenRow :=
  { access_token := .str "old-access", refresh_token := .str "refresh-1",
    expires_at := some 1000 }

/-- A stored row that expires at time 9,000,000. -/
def validRow : TokenRow :=
  { access_token := .str "access-1", refresh_token := .str "refresh-1",
    expires_at := some 9000000 }

/-- The token set a refresh returns in the examples. -/
def freshTokens : Tokens :=
  { access_token := .str "new-access", refresh_token := .str "refresh-1",
    expiry_date := some 5000000 }

/-- Answers at time 2000: the query works, the refresh and the insert
succeed. -/
def envOk : AuthEnv :=
  { queryError := none, nowLoad := 2000, refresh := .ok freshTokens, nowSave := 2001,
    insert := .stored }

/-- Answers at time 2000: the query works, the refresh fails. -/
def envRefreshFails : AuthEnv :=
  { queryError := none, nowLoad := 2000, refresh := .error "invalid_grant", nowSave := 2001,
    insert := .stored }

/-- Answers at time 2000: the query itself fails. -/
def envQueryFails : AuthEnv :=
  { queryError := some "fetch failed", nowLoad := 2000, refresh := .ok freshTokens,
    nowSave := 2001, insert := .stored }

/-- A manager whose client holds an access token that expired at time 1000. -/
def staleAuth : GoogleAuth :=
  { oauth2Client :=
      { credentials :=
          { access_token := .str "old-access", refresh_token := .str "refresh-1",
            expiry_date := some 1000 } } }

/-- The answer of a successful `files.watch` in the examples. -/
def watchData : WatchData :=
  { id := .str "channel-2000", resourceId := .str "res-2", expiration := .str "1700000000000" }

end Example

/-! ## Reading a trace of the credential manager -/

namespace AuthEffect

/-- The rows a trace asks the store to insert, in order. -/
def inserted (effects : List AuthEffect) : List TokenRow :=
  effects.filterMap fun
    | insert row => some row
    | _ => none

end AuthEffect

namespace GoogleAuth

/-- The instant `saveToken` computes for the row:
`Date.now() + (tokens.expiry_date || 3600000)`. -/
def rowExpiry (tokens : Tokens) (now : Int) : Int :=
  now + (match tokens.expiry_date with
    | some e => if e ≠ 0 then e else 3600000
    | none => 3600000)

/-- A `saveToken(tokens)` at time `saved` that the store accepts, followed by
a `loadToken()`. -/
def saveThenLoad (self : GoogleAuth) (store : TokenStore) (tokens : Tokens) (saved : Int)
    (env : AuthEnv) : AuthOutcome Bool :=
  let first := saveToken self store tokens saved .stored
  loadToken first.auth first.store env

end GoogleAuth

/-! ## zip-manager.js: upload -/

/-- The fields of `response.data` of `drive.files.create`
(`fields: 'id, name, webContentLink, webViewLink'`). -/
structure CreatedFile where
  id : String
  name : String
  webContentLink : JsVal
  webViewLink : JsVal
  deriving DecidableEq, Repr

/-- Calls `uploadZipToDrive` makes on the Drive client. -/
inductive UploadEffect where
  /-- Call `drive.files.create` for a zip named `name` under `parent`. -/
  | filesCreate (name parent : String) (content : List ZipEntry)
  /-- Call `drive.permissions.create` with role `reader` for `anyone`. -/
  | permissionsCreate (fileId : String)
  deriving DecidableEq, Repr

/-- What `uploadZipToDrive` leaves behind: the calls made and what the caller
receives (`Except.error` is a thrown error). -/
structure UploadOutcome where
  effects : List UploadEffect
  result : Except String CreatedFile

namespace ZipManager

/-- Method `uploadZipToDrive(buffer, zipName, parentFolderId)`.  `create` and
`permission` are what `drive.files.create` and `drive.permissions.create`
answer. -/
def uploadZipToDrive (buffer : List ZipEntry) (zipName parentFolderId : String)
    (create : Except String CreatedFile) (permission : Except String Unit) : UploadOutcome :=
  match create with
  | .error e =>
      { effects := [UploadEffect.filesCreate zipName parentFolderId buffer], result := .error e }
  | .ok data =>
      match permission with
      | .error e =>
          { effects := [UploadEffect.filesCreate zipName parentFolderId buffer,
                        UploadEffect.permissionsCreate data.id],
            result := .error e }
      | .ok _ =>
          { effects := [UploadEffect.filesCreate zipName parentFolderId buffer,
                        UploadEffect.permissionsCreate data.id],
            result := .ok data }

end ZipManager

/-! ## zip-manager.js: the requests of the enumeration -/

/-- The argument of one `drive.files.list` call; `pageToken` is `none` when
the request carries none. -/
structure ListRequest where
  q : String
  fields : String
  pageSize : Nat
  pageToken : Option String
  deriving DecidableEq, Repr

/-- The children of each folder as the provider holds them, split into the
pages it serves them in. -/
abbrev PagedListing := String → List (List DriveFile)

namespace ZipManager

/-- The request `getAllFilesInFolder` sends for a folder. -/
def listRequest (folderId : String) : ListRequest :=
  { q := "'" ++ folderId ++ "' in parents and trashed=false"
    fields := "files(id, name, mimeType)"
    pageSize := 1000
    pageToken := none }

/-- The loop of `getAllFilesInFolder` with the requests sent so far. -/
def getAllFilesLoopTraced
    (recur : String → String → Option (List ListRequest × Except String (List FileEntry)))
    (basePath : String) :
    List DriveFile → List ListRequest → List FileEntry →
      Option (List ListRequest × Except String (List FileEntry))
  | [], calls, results => some (calls, .ok results)
  | file :: rest, calls, results =>
      let filePath := if basePath ≠ "" then basePath ++ "/" ++ file.name else file.name
      if file.mimeType = folderMimeType then
        match recur file.id filePath with
        | none => none
        | some (subCalls, .error e) => some (calls ++ subCalls, .error e)
        | some (subCalls, .ok subFiles) =>
            getAllFilesLoopTraced recur basePath rest (calls ++ subCalls) (results ++ subFiles)
      else
        getAllFilesLoopTraced recur basePath rest calls
          (results ++ [{ id := file.id, name := file.name, path := filePath,
                         mimeType := file.mimeType }])

/-- Method `getAllFilesInFolder(folderId, basePath)` with the `files.list`
requests it sends, in order.  The first argument bounds the depth of the
recursion; `none` means the bound was reached. -/
def getAllFilesInFolderTraced (dc : DriveClient) :
    Nat → String → String → Option (List ListRequest × Except String (List FileEntry))
  | 0, _, _ => none
  | fuel + 1, folderId, basePath =>
      match dc.list folderId with
      | .error e => some ([listRequest folderId], .error e)
      | .ok files =>
          getAllFilesLoopTraced (getAllFilesInFolderTraced dc fuel) basePath (files.getD [])
            [listRequest folderId] []

end ZipManager

namespace DriveClient

/-- The Drive client in front of a provider serving pages: a `files.list`
request without a page token is answered with the first page. -/
def ofPages (pages : PagedListing) (getFile : String → Except String FileInfo)
    (downloadFile : String → Except String ReadStream) : DriveClient :=
  { getFile := getFile, downloadFile := downloadFile
    list := fun folderId => .ok (some ((pages folderId).headD [])) }

end DriveClient

namespace Node

mutual
/-- The ids of the folders at or below a node, each before its subfolders,
in listing order. -/
def folderIds : Node → List String
  | file _ _ _ => []
  | folder id _ children => id :: folderIdsList children
/-- The ids of the folders at or below the nodes of a list. -/
def folderIdsList : List Node → List String
  | [] => []
  | c :: cs => folderIds c ++ folderIdsList cs
end

end Node

/-! ## server.js: path helpers and the rename route -/

namespace Server

/-- String method `trim()`: white space and line terminators are removed at
both ends. -/
def trim (s : String) : String :=
  ⟨((s.data.dropWhile RealtimeSync.isJsSpace).reverse.dropWhile
      RealtimeSync.isJsSpace).reverse⟩

/-- String method `startsWith(p)`. -/
def startsWith (s p : String) : Bool := p.data.isPrefixOf s.data

/-- String method `endsWith(p)`. -/
def endsWith (s p : String) : Bool := p.data.reverse.isPrefixOf s.data.reverse

/-- String method `substring(start, stop)`: both indices are clamped to the
string and swapped when out of order. -/
def substring (s : String) (start stop : Int) : String :=
  let a := min start.toNat s.data.length
  let b := min stop.toNat s.data.length
  ⟨(s.data.drop (min a b)).take (max a b - min a b)⟩

/-- String method `lastIndexOf(c)` for a single character; `-1` when the
character does not occur. -/
def lastIndexOf (s : String) (c : Char) : Int :=
  let k := s.data.reverse.indexOf c
  if k < s.data.length then (s.data.length : Int) - 1 - k else -1

/-- The second step of `normalizePath`: one leading `/` is removed with
`substring(1)`. -/
def stripLeadingSlash (s : String) : String :=
  if startsWith s "/" then substring s 1 s.data.length else s

/-- Function `normalizePath(inputPath)`; `none` is `null` or `undefined`. -/
def normalizePath (inputPath : Option String) : String :=
  match inputPath with
  | none => "Documentos/"
  | some input =>
      if input = "" ∨ input = "/" then "Documentos/"
      else
        let trimmed := trim input
        let stripped :=
          if startsWith trimmed "/" then substring trimmed 1 trimmed.data.length else trimmed
        let prefixed :=
          if !startsWith stripped "Documentos/" then "Documentos/" ++ stripped else stripped
        if !endsWith prefixed "/" then prefixed ++ "/" else prefixed

/-- The path the route `GET /api/folders` gives a folder named `name` listed
under `caminho`. -/
def listedFolderPath (caminho name : String) : String := caminho ++ name ++ "/"

/-- The path the route `GET /api/folders` gives a file named `name` listed
under `caminho`. -/
def listedFilePath (caminho name : String) : String := caminho ++ name

/-- Function `listarConteudoPasta(caminho)`: the names of the listed items;
an error of the listing is logged and gives no item. -/
def listarConteudoPasta (listing : Except String (Option (List String))) : List String :=
  match listing with
  | .error _ => []
  | .ok data => data.getD []

/-- The body of a `PUT /api/rename` request; a missing field is `none`. -/
structure RenameBody where
  oldPath : Option String
  newName : Option String
  type : JsVal

/-- Calls of the rename route on the storage bucket. -/
inductive StorageEffect where
  /-- Call `list(path, { limit: 1000, offset: 0 })`. -/
  | list (path : String)
  /-- Call `move(source, target)`. -/
  | move (source target : String)
  deriving DecidableEq, Repr

/-- The response of the rename route. -/
inductive RenameResponse where
  /-- Status 400. -/
  | badRequest
  /-- Status 200 with `newPath`. -/
  | renamed (newPath : String)
  /-- Status 500 with the error's message. -/
  | failed (details : String)
  deriving DecidableEq, Repr

/-- The target the rename route computes:
`oldPath.substring(0, oldPath.lastIndexOf('/') + 1) + newName`, followed by
`/` for a folder. -/
def renameTarget (oldPath newName : String) (type : JsVal) : String :=
  let parentPath := substring oldPath 0 (lastIndexOf oldPath '/' + 1)
  parentPath ++ newName ++ (if type = .str "folder" then "/" else "")

/-- The loop of the rename route over the items of a folder; it stops at the
first move that reports an error. -/
def renameMoves (oldPath newPath : String) (moveError : String → String → Option String) :
    List String → List StorageEffect → List StorageEffect × Option String
  | [], effects => (effects, none)
  | item :: rest, effects =>
      let oldFilePath := oldPath ++ item
      let newFilePath := newPath ++ item
      match moveError oldFilePath newFilePath with
      | some e => (effects ++ [StorageEffect.move oldFilePath newFilePath], some e)
      | none =>
          renameMoves oldPath newPath moveError rest
            (effects ++ [StorageEffect.move oldFilePath newFilePath])

/-- The route `PUT /api/rename`.  `listing` is what the bucket answers to the
listing of the old folder, `moveError` the error a move reports. -/
def rename (body : RenameBody) (listing : Except String (Option (List String)))
    (moveError : String → String → Option String) : List StorageEffect × RenameResponse :=
  match body.oldPath, body.newName with
  | some oldPath, some newName =>
      if oldPath = "" ∨ newName = "" then ([], .badRequest)
      else
        let newPath := renameTarget oldPath newName body.type
        if body.type = .str "folder" then
          let items := listarConteudoPasta listing
          let moved := renameMoves oldPath newPath moveError items [StorageEffect.list oldPath]
          match moved.2 with
          | some e => (moved.1, .failed e)
          | none => (moved.1, .renamed newPath)
        else
          match moveError oldPath newPath with
          | some e => ([StorageEffect.move oldPath newPath], .failed e)
          | none => ([StorageEffect.move oldPath newPath], .renamed newPath)
  | _, _ => ([], .badRequest)

end Server

namespace Example

/-- A token set as the provider returns it at time 1,700,000,000,000: it
expires one hour later. -/
def providerTokens : Tokens :=
  { access_token := .str "A", refresh_token := .str "R", expiry_date := some 1700003600000 }

/-- Answers for a load at time 1,700,000,001,000. -/
def envLater : AuthEnv :=
  { queryError := none, nowLoad := 1700000001000, refresh := .error "unused",
    nowSave := 1700000001001, insert := .stored }

/-- The file an upload creates in the examples. -/
def createdFile : CreatedFile :=
  { id := "zip-1", name := "arquivos.zip", webContentLink := .str "https://drive/download",
    webViewLink := .str "https://drive/view" }

/-- An archiver that refuses an empty entry name, as the library does, takes
every other entry under the name given, and finalizes. -/
def archiver : Archiver :=
  { accept := fun name stream =>
      if name = "" then .error "entry name must be a non-empty string value"
      else .ok { name := name, content := stream }
    finalize := fun _ => .ok () }

/-- A Drive client whose `getFile` answers with an empty name for `x`; no
call fails.  Listing `root` gives one file without a name. -/
def driveEmptyName : DriveClient :=
  { getFile := fun id => if id = "x" then .ok { name := "" } else .ok { name := "b.txt" }
    downloadFile := fun _ => .ok "c"
    list := fun id =>
      if id = "root" then .ok (some [{ id := "x", name := "", mimeType := "text/plain" }])
      else .ok none }

/-- A Drive client listing two files named `f.txt` in the folder `dup`; the
download of `x` fails. -/
def folderXFails : DriveClient :=
  { getFile := fun _ => .error "unused"
    downloadFile := fun id => if id = "y" then .ok "c" else .error "download failed"
    list := fun id =>
      if id = "dup" then
        .ok (some [{ id := "x", name := "f.txt", mimeType := "text/plain" },
                   { id := "y", name := "f.txt", mimeType := "text/plain" }])
      else .ok none }

/-- The same listing; the download of `y` fails. -/
def folderYFails : DriveClient :=
  { getFile := fun _ => .error "unused"
    downloadFile := fun id => if id = "x" then .ok "c" else .error "quota exceeded"
    list := fun id =>
      if id = "dup" then
        .ok (some [{ id := "x", name := "f.txt", mimeType := "text/plain" },
                   { id := "y", name := "f.txt", mimeType := "text/plain" }])
      else .ok none }

/-- A Drive client for which `x` fails and `y` is fetched as `f` with
content `c`. -/
def driveXFails : DriveClient :=
  { getFile := fun id => if id = "y" then .ok { name := "f" } else .error "metadata failed"
    downloadFile := fun _ => .ok "c"
    list := fun _ => .ok none }

/-- A Drive client for which `y` fails and `x` is fetched as `f` with
content `c`. -/
def driveYFails : DriveClient :=
  { getFile := fun id => if id = "x" then .ok { name := "f" } else .error "quota exceeded"
    downloadFile := fun _ => .ok "c"
    list := fun _ => .ok none }

/-- A provider that serves the children of `big` in two pages: `x.txt` on the
first, `z.txt` on the second. -/
def pages : PagedListing := fun folderId =>
  if folderId = "big" then
    [[{ id := "x", name := "x.txt", mimeType := "text/plain" }],
     [{ id := "z", name := "z.txt", mimeType := "text/plain" }]]
  else []

/-- The Drive client in front of `pages`. -/
def pagedDrive : DriveClient :=
  DriveClient.ofPages pages (fun _ => .error "unused") (fun _ => .error "unused")

end Example

/-! ## Auxiliary lemmas -/

namespace ZipManager

theorem intercalate_go_snoc (sep : String) (l : List String) (acc x : String) :
    String.intercalate.go acc sep (l ++ [x]) = String.intercalate.go acc sep l ++ sep ++ x := by
  induction l generalizing acc with
  | nil => simp [String.intercalate.go]
  | cons a as ih => simp [String.intercalate.go, ih]

theorem intercalate_snoc (sep : String) (l : List String) (x : String) (h : l ≠ []) :
    String.intercalate sep (l ++ [x]) = String.intercalate sep l ++ sep ++ x := by
  cases l with
  | nil => exact absurd rfl h
  | cons a as => simp [String.intercalate, intercalate_go_snoc]

theorem intercalate_go_length (sep : String) (l : List String) (acc : String) :
    acc.length ≤ (String.intercalate.go acc sep l).length := by
  induction l generalizing acc with
  | nil => simp [String.intercalate.go]
  | cons a as ih =>
      simp only [String.intercalate.go]
      refine le_trans ?_ (ih _)
      simp [String.length_append]
      omega

theorem length_pos_of_ne_empty (s : String) (h : s ≠ "") : 0 < s.length := by
  rcases s with ⟨cs⟩
  cases cs with
  | nil => exact absurd rfl h
  | cons c cs => simp [String.length]

theorem intercalate_ne_empty (sep : String) (l : List String) (h : l ≠ [])
    (hne : ∀ s ∈ l, s ≠ "") : String.intercalate sep l ≠ "" := by
  cases l with
  | nil => exact absurd rfl h
  | cons a as =>
      intro hEq
      have h1 := intercalate_go_length sep as a
      have h2 := length_pos_of_ne_empty a (hne a (by simp))
      simp only [String.intercalate] at hEq
      rw [hEq] at h1
      simp at h1
      omega

/-- The path the loop computes for a child named `name` of the folder reached
through the folders `above`. -/
theorem filePath_eq (above : List String) (name : String) (hne : ∀ s ∈ above, s ≠ "") :
    (if String.intercalate "/" above ≠ "" then String.intercalate "/" above ++ "/" ++ name
      else name) = String.intercalate "/" (above ++ [name]) := by
  cases above with
  | nil => simp [String.intercalate, String.intercalate.go]
  | cons a as =>
      rw [if_pos (intercalate_ne_empty "/" (a :: as) (by simp) hne)]
      exact (intercalate_snoc "/" (a :: as) name (by simp)).symm

/-- The loop over the children of a folder of a listed tree, given that the
recursive call is right on every folder of depth below `fuel`. -/
theorem getAllFilesLoop_tree (dc : DriveClient) (fuel : Nat)
    (ih : ∀ (id : String) (above : List String) (cs : List Node),
      dc.list id = .ok (some (cs.map Node.toDriveFile)) → Node.ListedByList dc cs →
      Node.NamesNonEmptyList cs → (∀ s ∈ above, s ≠ "") → Node.depthList cs < fuel →
      getAllFilesInFolder dc fuel id (String.intercalate "/" above)
        = some (.ok ((Node.leavesList above cs).map Leaf.toEntry)))
    (above : List String) (habove : ∀ s ∈ above, s ≠ "") (cs : List Node)
    (hL : Node.ListedByList dc cs) (hN : Node.NamesNonEmptyList cs)
    (hd : Node.depthList cs ≤ fuel) (results : List FileEntry) :
    getAllFilesLoop (getAllFilesInFolder dc fuel) (String.intercalate "/" above)
        (cs.map Node.toDriveFile) results
      = some (.ok (results ++ (Node.leavesList above cs).map Leaf.toEntry)) := by
  induction cs generalizing results with
  | nil => simp [getAllFilesLoop, Node.leavesList]
  | cons c cs ihcs =>
      simp only [Node.ListedByList] at hL
      simp only [Node.NamesNonEmptyList] at hN
      simp only [Node.depthList] at hd
      have hdcs : Node.depthList cs ≤ fuel := le_trans (le_max_right _ _) hd
      have hdc : Node.depth c ≤ fuel := le_trans (le_max_left _ _) hd
      cases c with
      | file id name mimeType =>
          have hm : mimeType ≠ folderMimeType := by simpa [Node.ListedBy] using hL.1
          simp only [List.map_cons, Node.toDriveFile, getAllFilesLoop, if_neg hm]
          rw [filePath_eq above name habove, ihcs hL.2 hN.2 hdcs]
          simp [Node.leavesList, Node.leaves, Leaf.toEntry, Leaf.path]
      | folder id name ch =>
          have hl := hL.1
          simp only [Node.ListedBy] at hl
          have hn := hN.1
          simp only [Node.NamesNonEmpty] at hn
          simp only [Node.depth] at hdc
          have habove1 : ∀ s ∈ above ++ [name], s ≠ "" := by
            intro s hs
            rcases List.mem_append.mp hs with h | h
            · exact habove s h
            · simp at h; rw [h]; exact hn.1
          simp only [List.map_cons, Node.toDriveFile, getAllFilesLoop, if_true]
          rw [filePath_eq above name habove,
            ih id (above ++ [name]) ch hl.1 hl.2 hn.2 habove1 (by omega)]
          simp only []
          rw [ihcs hL.2 hN.2 hdcs]
          simp [Node.leavesList, Node.leaves]

/-- On a listed tree with non-empty names the enumeration returns, given a
depth bound above the tree's depth, the entries of the leaves below the
folder in depth-first order. -/
theorem getAllFilesInFolder_tree (dc : DriveClient) (fuel : Nat) :
    ∀ (id : String) (above : List String) (cs : List Node),
      dc.list id = .ok (some (cs.map Node.toDriveFile)) → Node.ListedByList dc cs →
      Node.NamesNonEmptyList cs → (∀ s ∈ above, s ≠ "") → Node.depthList cs < fuel →
      getAllFilesInFolder dc fuel id (String.intercalate "/" above)
        = some (.ok ((Node.leavesList above cs).map Leaf.toEntry)) := by
  induction fuel with
  | zero => intro id above cs _ _ _ _ hd; omega
  | succ n ih =>
      intro id above cs hlist hL hN habove hd
      simp only [getAllFilesInFolder, hlist, Option.getD_some]
      rw [getAllFilesLoop_tree dc n ih above habove cs hL hN (by omega) []]
      simp

/-- The loop over the children of a folder of a listed tree, whatever the
names are: it returns, and adds one entry per leaf, in depth-first order. -/
theorem getAllFilesLoop_files (dc : DriveClient) (fuel : Nat)
    (ih : ∀ (id base : String) (above : List String) (cs : List Node),
      dc.list id = .ok (some (cs.map Node.toDriveFile)) → Node.ListedByList dc cs →
      Node.depthList cs < fuel →
      ∃ es, getAllFilesInFolder dc fuel id base = some (.ok es) ∧
        es.map FileEntry.file = (Node.leavesList above cs).map Leaf.file)
    (base : String) (above : List String) (cs : List Node)
    (hL : Node.ListedByList dc cs) (hd : Node.depthList cs ≤ fuel)
    (results : List FileEntry) :
    ∃ es, getAllFilesLoop (getAllFilesInFolder dc fuel) base
        (cs.map Node.toDriveFile) results = some (.ok (results ++ es)) ∧
      es.map FileEntry.file = (Node.leavesList above cs).map Leaf.file := by
  induction cs generalizing results with
  | nil => exact ⟨[], by simp [getAllFilesLoop, Node.leavesList]⟩
  | cons c cs ihcs =>
      simp only [Node.ListedByList] at hL
      simp only [Node.depthList] at hd
      have hdcs : Node.depthList cs ≤ fuel := le_trans (le_max_right _ _) hd
      have hdc : Node.depth c ≤ fuel := le_trans (le_max_left _ _) hd
      cases c with
      | file id name mimeType =>
          have hm : mimeType ≠ folderMimeType := by simpa [Node.ListedBy] using hL.1
          simp only [List.map_cons, Node.toDriveFile, getAllFilesLoop, if_neg hm]
          obtain ⟨es, hes, hfiles⟩ := ihcs hL.2 hdcs
            (results ++ [{ id := id, name := name,
                           path := if base ≠ "" then base ++ "/" ++ name else name,
                           mimeType := mimeType }])
          refine ⟨{ id := id, name := name,
                    path := if base ≠ "" then base ++ "/" ++ name else name,
                    mimeType := mimeType } :: es, ?_, ?_⟩
          · rw [hes]; simp
          · simp [Node.leavesList, Node.leaves, hfiles, FileEntry.file, Leaf.file]
      | folder id name ch =>
          have hl := hL.1
          simp only [Node.ListedBy] at hl
          simp only [Node.depth] at hdc
          obtain ⟨sub, hsub, hsubfiles⟩ :=
            ih id (if base ≠ "" then base ++ "/" ++ name else name) (above ++ [name]) ch
              hl.1 hl.2 (by omega)
          obtain ⟨es, hes, hfiles⟩ := ihcs hL.2 hdcs (results ++ sub)
          refine ⟨sub ++ es, ?_, ?_⟩
          · simp only [List.map_cons, Node.toDriveFile, getAllFilesLoop, if_true]
            rw [hsub]
            simp only []
            rw [hes]; simp
          · simp [Node.leavesList, Node.leaves, hfiles, hsubfiles]

/-- On a listed tree the enumeration returns, given a depth bound above the
tree's depth, one entry per leaf below the folder, in depth-first order. -/
theorem getAllFilesInFolder_files (dc : DriveClient) (fuel : Nat) :
    ∀ (id base : String) (above : List String) (cs : List Node),
      dc.list id = .ok (some (cs.map Node.toDriveFile)) → Node.ListedByList dc cs →
      Node.depthList cs < fuel →
      ∃ es, getAllFilesInFolder dc fuel id base = some (.ok es) ∧
        es.map FileEntry.file = (Node.leavesList above cs).map Leaf.file := by
  induction fuel with
  | zero => intro id base above cs _ _ hd; omega
  | succ n ih =>
      intro id base above cs hlist hL hd
      obtain ⟨es, hes, hfiles⟩ := getAllFilesLoop_files dc n ih base above cs hL (by omega) []
      refine ⟨es, ?_, hfiles⟩
      simp only [getAllFilesInFolder, hlist, Option.getD_some]
      simpa using hes

/-- The loop only adds entries that do not carry the folder mime type. -/
theorem getAllFilesLoop_no_folder
    (recur : String → String → Option (Except String (List FileEntry)))
    (hrecur : ∀ id base es, recur id base = some (.ok es) →
      ∀ e ∈ es, e.mimeType ≠ folderMimeType)
    (base : String) (files : List DriveFile) (results es : List FileEntry)
    (hres : ∀ e ∈ results, e.mimeType ≠ folderMimeType)
    (h : getAllFilesLoop recur base files results = some (.ok es)) :
    ∀ e ∈ es, e.mimeType ≠ folderMimeType := by
  induction files generalizing results with
  | nil =>
      simp only [getAllFilesLoop, Option.some.injEq, Except.ok.injEq] at h
      rw [← h]; exact hres
  | cons f fs ih =>
      simp only [getAllFilesLoop] at h
      by_cases hm : f.mimeType = folderMimeType
      · rw [if_pos hm] at h
        cases hr : recur f.id (if base ≠ "" then base ++ "/" ++ f.name else f.name) with
        | none => rw [hr] at h; simp at h
        | some r =>
            cases r with
            | error e => rw [hr] at h; simp at h
            | ok sub =>
                rw [hr] at h
                refine ih (results ++ sub) ?_ h
                intro e he
                rcases List.mem_append.mp he with h1 | h1
                · exact hres e h1
                · exact hrecur _ _ _ hr e h1
      · rw [if_neg hm] at h
        refine ih _ ?_ h
        intro e he
        rcases List.mem_append.mp he with h1 | h1
        · exact hres e h1
        · simp at h1; rw [h1]; exact hm

/-- Whatever the Drive client answers, no entry the enumeration returns
carries the folder mime type. -/
theorem getAllFilesInFolder_no_folder (dc : DriveClient) (fuel : Nat) :
    ∀ (id base : String) (es : List FileEntry),
      getAllFilesInFolder dc fuel id base = some (.ok es) →
      ∀ e ∈ es, e.mimeType ≠ folderMimeType := by
  induction fuel with
  | zero => intro id base es h; simp [getAllFilesInFolder] at h
  | succ n ih =>
      intro id base es h
      simp only [getAllFilesInFolder] at h
      cases hl : dc.list id with
      | error e => rw [hl] at h; simp at h
      | ok files =>
          rw [hl] at h
          exact getAllFilesLoop_no_folder _ ih base _ [] es (by simp) h

open ZipEffect in
/-- What the loop of `createZip` adds to the trace and to the archive. -/
theorem createZipLoop_spec (dc : DriveClient) (archiver : Archiver) (ids : List String) :
    ∀ (effects : List ZipEffect) (archive : Archive),
      (createZipLoop dc archiver ids (effects, archive)).2
        = archive.appendAll archiver (ids.filterMap dc.fetched) ∧
      appended (createZipLoop dc archiver ids (effects, archive)).1
        = appended effects ++ ids.filterMap dc.fetched ∧
      getFileCalls (createZipLoop dc archiver ids (effects, archive)).1
        = getFileCalls effects ++ ids ∧
      downloadFileCalls (createZipLoop dc archiver ids (effects, archive)).1
        = downloadFileCalls effects ++ ids.filter (fun id => (dc.getFile id).isOk) ∧
      (createZipLoop dc archiver ids (effects, archive)).1.count finalize
        = effects.count finalize := by
  induction ids with
  | nil => intro effects archive; simp [createZipLoop, Archive.appendAll]
  | cons id rest ih =>
      intro effects archive
      cases hg : dc.getFile id with
      | error e =>
          simp only [createZipLoop, hg]
          obtain ⟨h1, h2, h3, h4, h5⟩ := ih (effects ++ [getFile id]) archive
          rw [h1, h2, h3, h4, h5]
          simp [DriveClient.fetched, hg, appended, getFileCalls,
            downloadFileCalls, List.filterMap_append, Except.isOk, Except.toBool]
      | ok info =>
          cases hd : dc.downloadFile id with
          | error e =>
              simp only [createZipLoop, hg, hd]
              obtain ⟨h1, h2, h3, h4, h5⟩ :=
                ih (effects ++ [getFile id, downloadFile id]) archive
              rw [h1, h2, h3, h4, h5]
              simp [DriveClient.fetched, hg, hd, appended, getFileCalls,
                downloadFileCalls, List.filterMap_append, Except.isOk, Except.toBool]
          | ok stream =>
              simp only [createZipLoop, hg, hd]
              obtain ⟨h1, h2, h3, h4, h5⟩ :=
                ih (effects ++ [getFile id, downloadFile id, append info.name stream])
                  (archive.append archiver info.name stream)
              rw [h1, h2, h3, h4, h5]
              simp [DriveClient.fetched, hg, hd, appended, getFileCalls,
                downloadFileCalls, List.filterMap_append, Except.isOk, Except.toBool,
                Archive.appendAll]

/-- With every call accepted, the archive takes one entry per call and no
error is emitted. -/
theorem appendAll_accepted (archiver : Archiver) (calls : List ZipEntry)
    (haccept : ∀ call ∈ calls, (archiver.accept call.name call.content).isOk = true) :
    ∀ archive : Archive,
      (archive.appendAll archiver calls).rejected = archive.rejected ∧
      (archive.appendAll archiver calls).entries.length
        = archive.entries.length + calls.length := by
  induction calls with
  | nil => intro archive; simp [Archive.appendAll]
  | cons call rest ih =>
      intro archive
      have hcall := haccept call (by simp)
      have hrest : ∀ c ∈ rest, (archiver.accept c.name c.content).isOk = true :=
        fun c hc => haccept c (by simp [hc])
      cases hacc : archiver.accept call.name call.content with
      | error e => rw [hacc] at hcall; simp [Except.isOk, Except.toBool] at hcall
      | ok entry =>
          obtain ⟨h1, h2⟩ := ih hrest (archive.append archiver call.name call.content)
          have hstep : Archive.appendAll archiver archive (call :: rest)
              = Archive.appendAll archiver (archive.append archiver call.name call.content)
                  rest := by
            simp [Archive.appendAll]
          have hrej : (archive.append archiver call.name call.content).rejected
              = archive.rejected := by simp [Archive.append, hacc]
          have hlen : (archive.append archiver call.name call.content).entries.length
              = archive.entries.length + 1 := by simp [Archive.append, hacc]
          rw [hstep, h1, h2, hrej, hlen]
          refine ⟨rfl, ?_⟩
          simp only [List.length_cons]
          omega

/-- A job whose calls are all accepted and whose `finalize` succeeds resolves
with one entry per call. -/
theorem settle_accepted (archiver : Archiver) (calls : List ZipEntry)
    (haccept : ∀ call ∈ calls, (archiver.accept call.name call.content).isOk = true)
    (hfinal : ∀ entries, archiver.finalize entries = .ok ()) :
    ∃ entries, (Archive.empty.appendAll archiver calls).settle archiver = .ok entries ∧
      entries.length = calls.length := by
  obtain ⟨h1, h2⟩ := appendAll_accepted archiver calls haccept Archive.empty
  refine ⟨(Archive.empty.appendAll archiver calls).entries, ?_, ?_⟩
  · unfold Archive.settle
    rw [h1, hfinal]
    rfl
  · rw [h2]; simp [Archive.empty]

/-- The ids that do not fail are fetched as all ids are. -/
theorem filterMap_fetched_filter (dc : DriveClient) (ids : List String) :
    (ids.filter (fun id => !dc.fails id)).filterMap dc.fetched = ids.filterMap dc.fetched := by
  induction ids with
  | nil => rfl
  | cons id rest ih =>
      have hnone : (dc.fetched id).isNone = dc.fails id := by
        unfold DriveClient.fetched DriveClient.fails
        cases dc.getFile id <;> cases dc.downloadFile id <;> simp [Except.isOk, Except.toBool]
      cases hf : dc.fails id with
      | true =>
          rw [hf] at hnone
          have : dc.fetched id = none := by simpa using hnone
          simp [List.filter_cons, hf, List.filterMap_cons, this, ih]
      | false =>
          simp only [List.filter_cons, hf, Bool.not_false, if_true, List.filterMap_cons]
          rw [ih]

/-- An id yields an entry exactly when it does not fail. -/
theorem fetched_isNone (dc : DriveClient) (id : String) :
    (dc.fetched id).isNone = dc.fails id := by
  unfold DriveClient.fetched DriveClient.fails
  cases dc.getFile id <;> cases dc.downloadFile id <;> simp [Except.isOk, Except.toBool]

/-- Counting the entries of a `filterMap` against the elements it drops. -/
theorem length_filterMap_add {α β : Type} (f : α → Option β) (l : List α) :
    (l.filterMap f).length + (l.filter (fun a => (f a).isNone)).length = l.length := by
  induction l with
  | nil => simp
  | cons a as ih =>
      cases h : f a with
      | none => simp [List.filterMap_cons, h]; omega
      | some b => simp [List.filterMap_cons, h]; omega

open ZipEffect in
/-- What the loop of `createFolderZip` adds to the trace and to the archive
when no enumerated file carries the folder mime type. -/
theorem createFolderZipLoop_spec (dc : DriveClient) (archiver : Archiver)
    (files : List FileEntry) (hfiles : ∀ f ∈ files, f.mimeType ≠ folderMimeType) :
    ∀ (effects : List ZipEffect) (archive : Archive),
      (createFolderZipLoop dc archiver files (effects, archive)).2
        = archive.appendAll archiver (files.filterMap dc.downloaded) ∧
      appended (createFolderZipLoop dc archiver files (effects, archive)).1
        = appended effects ++ files.filterMap dc.downloaded ∧
      downloadFileCalls (createFolderZipLoop dc archiver files (effects, archive)).1
        = downloadFileCalls effects ++ files.map FileEntry.id ∧
      (createFolderZipLoop dc archiver files (effects, archive)).1.count finalize
        = effects.count finalize := by
  induction files with
  | nil => intro effects archive; simp [createFolderZipLoop, Archive.appendAll]
  | cons f rest ih =>
      intro effects archive
      have hf : f.mimeType ≠ folderMimeType := hfiles f (by simp)
      have hrest : ∀ g ∈ rest, g.mimeType ≠ folderMimeType :=
        fun g hg => hfiles g (by simp [hg])
      cases hd : dc.downloadFile f.id with
      | error e =>
          simp only [createFolderZipLoop, hd, if_pos hf]
          obtain ⟨h1, h2, h3, h4⟩ := ih hrest (effects ++ [downloadFile f.id]) archive
          rw [h1, h2, h3, h4]
          simp [DriveClient.downloaded, hd, appended, downloadFileCalls, List.filterMap_append]
      | ok stream =>
          simp only [createFolderZipLoop, hd, if_pos hf]
          obtain ⟨h1, h2, h3, h4⟩ :=
            ih hrest (effects ++ [downloadFile f.id, append f.path stream])
              (archive.append archiver f.path stream)
          rw [h1, h2, h3, h4]
          simp [DriveClient.downloaded, hd, appended, downloadFileCalls, List.filterMap_append,
            Archive.appendAll]

/-- An enumerated file yields an entry exactly when its download succeeds. -/
theorem downloaded_isNone (dc : DriveClient) (f : FileEntry) :
    (dc.downloaded f).isNone = !(dc.downloadFile f.id).isOk := by
  unfold DriveClient.downloaded
  cases dc.downloadFile f.id <;> simp [Except.isOk, Except.toBool]

/-- A joined path starts with its accumulator. -/
theorem intercalate_go_prefix (sep : String) (l : List String) (acc : String) :
    ∃ rest, String.intercalate.go acc sep l = acc ++ rest := by
  induction l generalizing acc with
  | nil => exact ⟨"", by simp [String.intercalate.go]⟩
  | cons a as ih =>
      obtain ⟨rest, h⟩ := ih (acc ++ sep ++ a)
      refine ⟨sep ++ a ++ rest, ?_⟩
      simp only [String.intercalate.go]
      rw [h]
      simp only [String.append_assoc]

/-- A path starts with its first segment: nothing is put in front of it. -/
theorem path_prefix (l : Leaf) :
    ∃ rest, l.path = (l.folders ++ [l.name]).headD "" ++ rest := by
  unfold Leaf.path
  cases h : l.folders ++ [l.name] with
  | nil => simp at h
  | cons a as => simpa [String.intercalate] using intercalate_go_prefix "/" as a

end ZipManager

namespace Node

mutual
/-- The leaves of a node are as many as its leaf files. -/
theorem length_leaves (above : List String) :
    ∀ n : Node, (leaves above n).length = leafCount n
  | file _ _ _ => by simp [leaves, leafCount]
  | folder _ name children => by
      simp [leaves, leafCount, length_leavesList (above ++ [name]) children]
/-- The leaves of a list of nodes are as many as their leaf files. -/
theorem length_leavesList (above : List String) :
    ∀ cs : List Node, (leavesList above cs).length = leafCountList cs
  | [] => by simp [leavesList, leafCountList]
  | c :: cs => by
      simp [leavesList, leafCountList, length_leaves above c, length_leavesList above cs]
end

end Node

/-! ## Change-notification channel manager -/

namespace RealtimeSync

/-- C1: for headers whose `x-goog-channel-id` equals the channel id the manager
holds, `handleNotification` calls `syncManager.syncNow()` exactly once when
`x-goog-resource-state` is `'change'` or `'sync'`, and zero times for every
other resource state, a missing one included. -/
theorem handleNotification_sync_count (self : RealtimeSync) (headers : String → JsVal)
    (sync : Except String Unit)
    (hmatch : headers "x-goog-channel-id" = self.channelId) :
    (handleNotification self headers sync).effects.count Effect.syncNow =
      if headers "x-goog-resource-state" = .str "change" ∨
          headers "x-goog-resource-state" = .str "sync" then 1 else 0 := by
  unfold handleNotification
  simp only [hmatch, ne_eq, not_true_eq_false, if_false]
  split <;> simp

/-- Witness of C1: a `change`, a `sync`, an `update` and a state-less
notification for the held channel `channel-1`. -/
theorem handleNotification_sync_count_witness :
    Example.headers (.str "channel-1") (.str "change") "x-goog-channel-id"
        = Example.active.channelId ∧
      (handleNotification Example.active (Example.headers (.str "channel-1") (.str "change"))
          (.ok ())).effects.count Effect.syncNow = 1 ∧
      (handleNotification Example.active (Example.headers (.str "channel-1") (.str "sync"))
          (.ok ())).effects.count Effect.syncNow = 1 ∧
      (handleNotification Example.active (Example.headers (.str "channel-1") (.str "update"))
          (.ok ())).effects.count Effect.syncNow = 0 ∧
      (handleNotification Example.active (Example.headers (.str "channel-1") .undefined)
          (.ok ())).effects.count Effect.syncNow = 0 :=
  ⟨by decide,
   handleNotification_sync_count Example.active
     (Example.headers (.str "channel-1") (.str "change")) (.ok ()) (by decide),
   handleNotification_sync_count Example.active
     (Example.headers (.str "channel-1") (.str "sync")) (.ok ()) (by decide),
   handleNotification_sync_count Example.active
     (Example.headers (.str "channel-1") (.str "update")) (.ok ()) (by decide),
   handleNotification_sync_count Example.active
     (Example.headers (.str "channel-1") .undefined) (.ok ()) (by decide)⟩

/-- C2: for headers whose `x-goog-channel-id` differs from the channel id the
manager holds (a manager holding `null` and an absent header included),
`handleNotification` makes no call at all, so never calls `syncNow()`,
whatever the resource state is, leaves the manager's fields unchanged and
returns normally. -/
theorem handleNotification_foreign_channel (self : RealtimeSync) (headers : String → JsVal)
    (sync : Except String Unit)
    (hdiff : headers "x-goog-channel-id" ≠ self.channelId) :
    (handleNotification self headers sync).effects = [] ∧
      (handleNotification self headers sync).effects.count Effect.syncNow = 0 ∧
      (handleNotification self headers sync).state = self ∧
      (handleNotification self headers sync).result = .ok () := by
  unfold handleNotification
  simp [hdiff]

/-- Witness of C2: a manager that holds no channel receives a `change`
notification without a channel header. -/
theorem handleNotification_foreign_channel_witness :
    Example.headers .undefined (.str "change") "x-goog-channel-id" ≠ RealtimeSync.new.channelId ∧
      ((handleNotification RealtimeSync.new (Example.headers .undefined (.str "change"))
          (.ok ())).effects = [] ∧
       (handleNotification RealtimeSync.new (Example.headers .undefined (.str "change"))
          (.ok ())).effects.count Effect.syncNow = 0 ∧
       (handleNotification RealtimeSync.new (Example.headers .undefined (.str "change"))
          (.ok ())).state = RealtimeSync.new ∧
       (handleNotification RealtimeSync.new (Example.headers .undefined (.str "change"))
          (.ok ())).result = .ok ()) :=
  ⟨by decide,
   handleNotification_foreign_channel RealtimeSync.new
     (Example.headers .undefined (.str "change")) (.ok ()) (by decide)⟩

/-- An active manager is not unregistered. -/
theorem not_unregistered_of_active (self : RealtimeSync) (h : Active self) :
    ¬ Unregistered self := by
  intro hu
  have h1 := h.1
  rw [hu.1] at h1
  simp [JsVal.truthy] at h1

/-- What one `stopPushNotifications` call does, in every state. -/
theorem stopPushNotifications_spec (self : RealtimeSync) (stop : Except String Unit) :
    (stopPushNotifications self stop).state = self ∧
      (stopPushNotifications self stop).result = .ok () ∧
      (stopPushNotifications self stop).effects =
        if self.channelId.truthy && self.resourceId.truthy
        then [Effect.channelsStop self.channelId self.resourceId] else [] := by
  unfold stopPushNotifications
  cases h1 : self.channelId.truthy <;> cases h2 : self.resourceId.truthy <;>
    cases stop <;> simp

/-- Counterexample to C8: the manager holds `channel-1`, the renewal fires, the
stop succeeds and the new registration fails; the manager is not
unregistered afterwards, it still holds `channel-1` and `res-1`. -/
theorem renewal_failed_still_active :
    Active Example.active ∧
      ¬ Unregistered (renewal Example.active (.str "root") (.str "https://example.org/hook")
          Example.clock (.ok ()) (.error "watch failed")).state ∧
      (renewal Example.active (.str "root") (.str "https://example.org/hook")
          Example.clock (.ok ()) (.error "watch failed")).state.channelId = .str "channel-1" ∧
      (renewal Example.active (.str "root") (.str "https://example.org/hook")
          Example.clock (.ok ()) (.error "watch failed")).state.resourceId = .str "res-1" := by
  decide

/-- C8, amended: starting from an active channel, when the renewal fires
(`stopPushNotifications`, then `setupPushNotifications`) and the new
registration fails, the manager's fields are what they were before: it
still holds the old channel's `channelId` and `resourceId`, so it is active
and not unregistered.  It has issued one `channels.stop` for the old channel
and one `files.watch`, and the registration returned `false`. -/
theorem renewal_failed_keeps_channel (self : RealtimeSync) (rootFolderId envWebhookUrl : JsVal)
    (clock : Clock) (stop : Except String Unit) (error : String) (hactive : Active self) :
    (renewal self rootFolderId envWebhookUrl clock stop (.error error)).state = self ∧
      Active (renewal self rootFolderId envWebhookUrl clock stop (.error error)).state ∧
      ¬ Unregistered (renewal self rootFolderId envWebhookUrl clock stop (.error error)).state ∧
      (renewal self rootFolderId envWebhookUrl clock stop (.error error)).result = .ok false ∧
      (renewal self rootFolderId envWebhookUrl clock stop (.error error)).effects =
        [Effect.channelsStop self.channelId self.resourceId,
         Effect.filesWatch rootFolderId ("channel-" ++ toString clock.nowId) envWebhookUrl
           (clock.nowExpiration + 604800000)] := by
  have hstate : (renewal self rootFolderId envWebhookUrl clock stop (.error error)).state
      = self := by
    simp [renewal, setupPushNotifications, (stopPushNotifications_spec self stop).1]
  refine ⟨hstate, ?_, ?_, ?_, ?_⟩
  · rw [hstate]; exact hactive
  · rw [hstate]; exact not_unregistered_of_active self hactive
  · simp [renewal, setupPushNotifications]
  · simp [renewal, setupPushNotifications, (stopPushNotifications_spec self stop).1,
      (stopPushNotifications_spec self stop).2.2, hactive.1, hactive.2]

/-- Witness of the amended C8 at the manager holding `channel-1`. -/
theorem renewal_failed_keeps_channel_witness :
    Active Example.active ∧
      (renewal Example.active (.str "root") (.str "https://example.org/hook")
          Example.clock (.error "stop failed") (.error "watch failed")).state
        = Example.active :=
  ⟨by decide,
   (renewal_failed_keeps_channel Example.active (.str "root")
      (.str "https://example.org/hook") Example.clock (.error "stop failed") "watch failed"
      (by decide)).1⟩

/-- Counterexample to C9: the manager holds `channel-1` and the provider's stop
succeeds; after `stopPushNotifications` the three fields still refer to the
stopped channel. -/
theorem stopPushNotifications_not_cleared :
    Active Example.active ∧
      (stopPushNotifications Example.active (.ok ())).state.channelId
        = Example.active.channelId ∧
      (stopPushNotifications Example.active (.ok ())).state.resourceId
        = Example.active.resourceId ∧
      (stopPushNotifications Example.active (.ok ())).state.expiration
        = Example.active.expiration ∧
      ¬ Unregistered (stopPushNotifications Example.active (.ok ())).state := by
  decide

/-- C9, amended: for every manager state holding an active channel,
`stopPushNotifications` issues one `channels.stop` for the held channel and
returns normally both when that call succeeds and when it fails; the
manager's fields (`channelId`, `resourceId`, `expiration`) are left as they
were. -/
theorem stopPushNotifications_active (self : RealtimeSync) (stop : Except String Unit)
    (hactive : Active self) :
    (stopPushNotifications self stop).effects
        = [Effect.channelsStop self.channelId self.resourceId] ∧
      (stopPushNotifications self stop).result = .ok () ∧
      (stopPushNotifications self stop).state = self := by
  obtain ⟨h1, h2, h3⟩ := stopPushNotifications_spec self stop
  refine ⟨?_, h2, h1⟩
  rw [h3, hactive.1, hactive.2]
  simp

/-- Witness of the amended C9: the provider's stop fails for `channel-1`. -/
theorem stopPushNotifications_active_witness :
    Active Example.active ∧
      ((stopPushNotifications Example.active (.error "stop failed")).effects
          = [Effect.channelsStop Example.active.channelId Example.active.resourceId] ∧
        (stopPushNotifications Example.active (.error "stop failed")).result = .ok () ∧
        (stopPushNotifications Example.active (.error "stop failed")).state = Example.active) :=
  ⟨by decide, stopPushNotifications_active Example.active (.error "stop failed") (by decide)⟩

/-- Counterexample to C10: with the channel `channel-1` held, two calls of
`stopPushNotifications` in a row issue two `channels.stop` calls, one call
issues one. -/
theorem stopPushNotifications_twice_two_calls :
    (stopPushNotifications Example.active (.ok ())).effects ++
        (stopPushNotifications (stopPushNotifications Example.active (.ok ())).state
          (.ok ())).effects
      ≠ (stopPushNotifications Example.active (.ok ())).effects := by
  decide

/-- C10, amended: `stopPushNotifications` is a no-op when no channel is
active: if `channelId` or `resourceId` is `null` (or otherwise falsy) it
issues no provider call; in every state it leaves every field of the manager
unchanged.  Calling it twice in a row leaves the same state as calling it
once, and the second call issues the same provider calls as the first one
did: none when no channel is held, one more `channels.stop` when one is. -/
theorem stopPushNotifications_noop_and_repeat (self : RealtimeSync)
    (stop1 stop2 : Except String Unit) :
    (stopPushNotifications self stop1).state = self ∧
      (stopPushNotifications self stop1).effects =
        (if self.channelId.truthy && self.resourceId.truthy
          then [Effect.channelsStop self.channelId self.resourceId] else []) ∧
      (stopPushNotifications (stopPushNotifications self stop1).state stop2).state
        = (stopPushNotifications self stop1).state ∧
      (stopPushNotifications (stopPushNotifications self stop1).state stop2).effects
        = (stopPushNotifications self stop1).effects := by
  obtain ⟨h1, _, h3⟩ := stopPushNotifications_spec self stop1
  obtain ⟨k1, _, k3⟩ := stopPushNotifications_spec self stop2
  rw [h1]
  exact ⟨rfl, h3, k1, by rw [k3, h3]⟩

end RealtimeSync

/-! ## Recursive archive builder -/

namespace ZipManager

/-- Counterexample to C3: two ids are requested and neither `getFile` nor
`downloadFile` fails (N = 2, K = 0), but `getFile` answers with an empty name
for `x`; the archiver emits an error for that entry, the archive holds one
entry instead of two, and the promise is rejected. -/
theorem createZip_rejected_without_failure :
    Example.driveEmptyName.fails "x" = false ∧ Example.driveEmptyName.fails "y" = false ∧
      (createZip Example.driveEmptyName Example.archiver ["x", "y"]).result
        = .error "entry name must be a non-empty string value" ∧
      ZipEffect.appended (createZip Example.driveEmptyName Example.archiver ["x", "y"]).effects
        = [{ name := "", content := "c" }, { name := "b.txt", content := "c" }] ∧
      (createZipLoop Example.driveEmptyName Example.archiver ["x", "y"]
          ([], Archive.empty)).2
        = { entries := [{ name := "b.txt", content := "c" }],
            rejected := some "entry name must be a non-empty string value" } :=
  ⟨by decide, by decide, rfl, by decide, by decide⟩

/-- C3, amended: for every list of N file ids passed to `createZip` of which K
fail (`getFile` or `downloadFile` throws for that id), exactly N - K entries
are handed to `archive.append`, the archive is still finalized, and the
per-item failures do not reject the promise: the job settles exactly as the
job over the non-failing ids alone does.  It resolves, with N - K entries,
whenever the archiver accepts each of these entries and `finalize` succeeds;
an entry for which the archiver emits an error rejects it. -/
theorem createZip_partial_failure (dc : DriveClient) (archiver : Archiver)
    (fileIds : List String) :
    (ZipEffect.appended (createZip dc archiver fileIds).effects).length
        = fileIds.length - (fileIds.filter dc.fails).length ∧
      (ZipEffect.appended (createZip dc archiver fileIds).effects).length
        + (fileIds.filter dc.fails).length = fileIds.length ∧
      ZipEffect.Finalized (createZip dc archiver fileIds).effects ∧
      (createZip dc archiver fileIds).result
        = (createZip dc archiver (fileIds.filter (fun id => !dc.fails id))).result ∧
      ((∀ call ∈ fileIds.filterMap dc.fetched,
          (archiver.accept call.name call.content).isOk = true) →
        (∀ entries, archiver.finalize entries = .ok ()) →
        ∃ entries, (createZip dc archiver fileIds).result = .ok entries ∧
          entries.length = fileIds.length - (fileIds.filter dc.fails).length) := by
  obtain ⟨h1, h2, _, _, h5⟩ := createZipLoop_spec dc archiver fileIds [] Archive.empty
  have hcount := length_filterMap_add dc.fetched fileIds
  have hfails : (fun id => (dc.fetched id).isNone) = dc.fails :=
    funext (fetched_isNone dc)
  rw [hfails] at hcount
  have happ : ZipEffect.appended (createZip dc archiver fileIds).effects
      = fileIds.filterMap dc.fetched := by
    simp only [createZip]
    simp only [ZipEffect.appended, List.filterMap_append] at h2 ⊢
    rw [h2]
    simp
  have hresult : ∀ ids : List String, (createZip dc archiver ids).result
      = (Archive.empty.appendAll archiver (ids.filterMap dc.fetched)).settle archiver := by
    intro ids
    simp only [createZip, (createZipLoop_spec dc archiver ids [] Archive.empty).1]
  refine ⟨?_, ?_, ?_, ?_, ?_⟩
  · rw [happ]; omega
  · rw [happ]; exact hcount
  · constructor
    · simp [createZip]
    · simp only [createZip, List.count_append, h5]
      simp
  · rw [hresult, hresult, filterMap_fetched_filter]
  · intro haccept hfinal
    obtain ⟨entries, hentries, hlen⟩ :=
      settle_accepted archiver (fileIds.filterMap dc.fetched) haccept hfinal
    exact ⟨entries, by rw [hresult, hentries], by rw [hlen]; omega⟩

/-- Witness of the amended C3: of `x`, `y`, `z`, `x` the ids `y` and `z` fail;
the archiver accepts the two entries of `x` and the job resolves with
them. -/
theorem createZip_partial_failure_witness :
    (∀ call ∈ ["x", "y", "z", "x"].filterMap Example.drive.fetched,
        (Example.archiver.accept call.name call.content).isOk = true) ∧
      (∀ entries, Example.archiver.finalize entries = .ok ()) ∧
      (createZip Example.drive Example.archiver ["x", "y", "z", "x"]).result
        = .ok [{ name := "x.txt", content := "content of x" },
               { name := "x.txt", content := "content of x" }] ∧
      ∃ entries,
        (createZip Example.drive Example.archiver ["x", "y", "z", "x"]).result = .ok entries ∧
        entries.length
          = ["x", "y", "z", "x"].length
            - (["x", "y", "z", "x"].filter Example.drive.fails).length :=
  have haccept : ∀ call ∈ ["x", "y", "z", "x"].filterMap Example.drive.fetched,
      (Example.archiver.accept call.name call.content).isOk = true := by decide
  have hfinal : ∀ entries, Example.archiver.finalize entries = .ok () := fun _ => rfl
  ⟨haccept, hfinal, rfl,
   (createZip_partial_failure Example.drive Example.archiver ["x", "y", "z", "x"]).2.2.2.2
     haccept hfinal⟩

/-- C6: for every list of file ids, the entries `createZip` hands to
`archive.append` are, in input order, those of the ids for which both
`getFile` and `downloadFile` succeeded, each under the bare name `getFile`
returned for that id; `getFile` is called once per requested id, in input
order, and `downloadFile` once for each id whose `getFile` succeeded and for
no other, so nothing is retried. -/
theorem createZip_entries_in_order (dc : DriveClient) (archiver : Archiver)
    (fileIds : List String) :
    ZipEffect.appended (createZip dc archiver fileIds).effects
        = fileIds.filterMap dc.fetched ∧
      ZipEffect.getFileCalls (createZip dc archiver fileIds).effects = fileIds ∧
      ZipEffect.downloadFileCalls (createZip dc archiver fileIds).effects
        = fileIds.filter (fun id => (dc.getFile id).isOk) := by
  obtain ⟨_, h2, h3, h4, _⟩ := createZipLoop_spec dc archiver fileIds [] Archive.empty
  refine ⟨?_, ?_, ?_⟩
  · simp only [createZip]
    simp only [ZipEffect.appended, List.filterMap_append] at h2 ⊢
    rw [h2]; simp
  · simp only [createZip]
    simp only [ZipEffect.getFileCalls, List.filterMap_append] at h3 ⊢
    rw [h3]; simp
  · simp only [createZip]
    simp only [ZipEffect.downloadFileCalls, List.filterMap_append] at h4 ⊢
    rw [h4]; simp

/-- C4: for every finite folder tree whose node names are non-empty and which
the Drive client lists, `getAllFilesInFolder(root)` returns for each leaf
file an entry whose path is the names of the folders from the root's child
down to the file and the file's name, joined by `/`; the path starts with its
first segment (nothing, no `/`, is put in front) and the root's own name is
not part of it. -/
theorem getAllFilesInFolder_relative_paths (dc : DriveClient) (fuel : Nat)
    (id name : String) (children : List Node)
    (hlisted : Node.ListedBy dc (.folder id name children))
    (hnames : Node.NamesNonEmptyList children)
    (hdepth : (Node.folder id name children).depth ≤ fuel) :
    getAllFilesInFolder dc fuel id ""
        = some (.ok ((Node.leavesList [] children).map Leaf.toEntry)) ∧
      (∀ l ∈ Node.leavesList [] children,
        l.toEntry.path = String.intercalate "/" (l.folders ++ [l.name]) ∧
        ∃ rest, l.toEntry.path = (l.folders ++ [l.name]).headD "" ++ rest) := by
  simp only [Node.ListedBy] at hlisted
  simp only [Node.depth] at hdepth
  constructor
  · have h := getAllFilesInFolder_tree dc fuel id [] children hlisted.1 hlisted.2 hnames
      (by simp) (by omega)
    simpa [String.intercalate] using h
  · intro l _
    exact ⟨rfl, path_prefix l⟩

/-- Witness of C4: the tree `root/A/x.txt`, `root/B/y.txt` yields the paths
`A/x.txt` and `B/y.txt`. -/
theorem getAllFilesInFolder_relative_paths_witness :
    Node.ListedBy Example.drive (.folder "root" "root" Example.children) ∧
      Node.NamesNonEmptyList Example.children ∧
      (Node.folder "root" "root" Example.children).depth ≤ 2 ∧
      getAllFilesInFolder Example.drive 2 "root" ""
        = some (.ok ((Node.leavesList [] Example.children).map Leaf.toEntry)) ∧
      ((Node.leavesList [] Example.children).map Leaf.toEntry).map FileEntry.path
        = ["A/x.txt", "B/y.txt"] :=
  have hlisted : Node.ListedBy Example.drive (.folder "root" "root" Example.children) := by
    simp [Node.ListedBy, Node.ListedByList, Example.drive, Example.children, Node.toDriveFile,
      folderMimeType]
  have hnames : Node.NamesNonEmptyList Example.children := by
    simp [Node.NamesNonEmptyList, Node.NamesNonEmpty, Example.children]
  have hdepth : (Node.folder "root" "root" Example.children).depth ≤ 2 := by
    simp [Node.depth, Node.depthList, Example.children]
  ⟨hlisted, hnames, hdepth,
   (getAllFilesInFolder_relative_paths Example.drive 2 "root" "root" Example.children
      hlisted hnames hdepth).1,
   by decide⟩

/-- C5: for every finite folder tree the Drive client lists (each listing
returning all of a folder's children), `getAllFilesInFolder(root)` returns
one entry per leaf file of the subtree, in depth-first order following each
folder's listing order, and none of the entries carries the folder mime type;
so the folder filter of `createFolderZip` keeps every entry and the number of
entries is the number of leaf files. -/
theorem getAllFilesInFolder_one_entry_per_leaf (dc : DriveClient) (fuel : Nat)
    (id name : String) (children : List Node)
    (hlisted : Node.ListedBy dc (.folder id name children))
    (hdepth : (Node.folder id name children).depth ≤ fuel) :
    ∃ entries, getAllFilesInFolder dc fuel id "" = some (.ok entries) ∧
      entries.map FileEntry.file = (Node.leavesList [] children).map Leaf.file ∧
      (∀ e ∈ entries, e.mimeType ≠ folderMimeType) ∧
      entries.filter (fun e => decide (e.mimeType ≠ folderMimeType)) = entries ∧
      entries.length = Node.leafCount (.folder id name children) := by
  simp only [Node.ListedBy] at hlisted
  simp only [Node.depth] at hdepth
  obtain ⟨es, hes, hfiles⟩ :=
    getAllFilesInFolder_files dc fuel id "" [] children hlisted.1 hlisted.2 (by omega)
  have hno := getAllFilesInFolder_no_folder dc fuel id "" es hes
  refine ⟨es, hes, hfiles, hno, ?_, ?_⟩
  · rw [List.filter_eq_self]
    intro e he
    simpa using hno e he
  · have hlen := congrArg List.length hfiles
    simp only [List.length_map] at hlen
    rw [hlen, Node.length_leavesList]
    simp [Node.leafCount]

/-- Witness of C5 at the tree `root/A/x.txt`, `root/B/y.txt`. -/
theorem getAllFilesInFolder_one_entry_per_leaf_witness :
    Node.ListedBy Example.drive (.folder "root" "root" Example.children) ∧
      (Node.folder "root" "root" Example.children).depth ≤ 2 ∧
      ∃ entries, getAllFilesInFolder Example.drive 2 "root" "" = some (.ok entries) ∧
        entries.map FileEntry.file = (Node.leavesList [] Example.children).map Leaf.file ∧
        (∀ e ∈ entries, e.mimeType ≠ folderMimeType) ∧
        entries.filter (fun e => decide (e.mimeType ≠ folderMimeType)) = entries ∧
        entries.length = Node.leafCount (.folder "root" "root" Example.children) :=
  have hlisted : Node.ListedBy Example.drive (.folder "root" "root" Example.children) := by
    simp [Node.ListedBy, Node.ListedByList, Example.drive, Example.children, Node.toDriveFile,
      folderMimeType]
  have hdepth : (Node.folder "root" "root" Example.children).depth ≤ 2 := by
    simp [Node.depth, Node.depthList, Example.children]
  ⟨hlisted, hdepth,
   getAllFilesInFolder_one_entry_per_leaf Example.drive 2 "root" "root" Example.children
     hlisted hdepth⟩

/-- Counterexample to C7: the folder `root` holds one file, without a name;
its download succeeds (M = 1, K = 0), but the entry's path is empty, the
archiver emits an error for it and the promise is rejected. -/
theorem createFolderZip_rejected_without_failure :
    Node.ListedBy Example.driveEmptyName
        (.folder "root" "root" [.file "x" "" "text/plain"]) ∧
      getAllFilesInFolder Example.driveEmptyName 1 "root" ""
        = some (.ok [{ id := "x", name := "", path := "", mimeType := "text/plain" }]) ∧
      Example.driveEmptyName.downloadFile "x" = .ok "c" ∧
      (createFolderZip Example.driveEmptyName Example.archiver 1 "root").map ZipOutcome.result
        = some (.error "entry name must be a non-empty string value") := by
  refine ⟨?_, rfl, rfl, rfl⟩
  simp [Node.ListedBy, Node.ListedByList, Example.driveEmptyName, Node.toDriveFile,
    folderMimeType]

/-- C7, amended: for every folder tree with M leaf files of which K fail to
download, `createFolderZip` hands exactly M - K entries to `archive.append`,
each under the relative path the enumeration computed for it (not the bare
name), in enumeration order, makes one download call per enumerated file and
finalizes the archive.  It resolves, with M - K entries, whenever the
archiver accepts each of these entries and `finalize` succeeds; an entry for
which the archiver emits an error (an empty path) rejects the promise. -/
theorem createFolderZip_partial_failure (dc : DriveClient) (archiver : Archiver) (fuel : Nat)
    (id name : String) (children : List Node)
    (hlisted : Node.ListedBy dc (.folder id name children))
    (hdepth : (Node.folder id name children).depth ≤ fuel) :
    ∃ files out, getAllFilesInFolder dc fuel id "" = some (.ok files) ∧
      files.map FileEntry.file = (Node.leavesList [] children).map Leaf.file ∧
      createFolderZip dc archiver fuel id = some out ∧
      ZipEffect.appended out.effects = files.filterMap dc.downloaded ∧
      ZipEffect.downloadFileCalls out.effects = files.map FileEntry.id ∧
      (ZipEffect.appended out.effects).length
        = Node.leafCount (.folder id name children)
          - (files.filter (fun f => !(dc.downloadFile f.id).isOk)).length ∧
      (files.filter (fun f => !(dc.downloadFile f.id).isOk)).length
        ≤ Node.leafCount (.folder id name children) ∧
      ZipEffect.Finalized out.effects ∧
      ((∀ call ∈ files.filterMap dc.downloaded,
          (archiver.accept call.name call.content).isOk = true) →
        (∀ entries, archiver.finalize entries = .ok ()) →
        ∃ entries, out.result = .ok entries ∧
          entries.length
            = Node.leafCount (.folder id name children)
              - (files.filter (fun f => !(dc.downloadFile f.id).isOk)).length) := by
  simp only [Node.ListedBy] at hlisted
  simp only [Node.depth] at hdepth
  obtain ⟨files, hfiles, hleaves⟩ :=
    getAllFilesInFolder_files dc fuel id "" [] children hlisted.1 hlisted.2 (by omega)
  have hno := getAllFilesInFolder_no_folder dc fuel id "" files hfiles
  obtain ⟨h1, h2, h3, h4⟩ := createFolderZipLoop_spec dc archiver files hno [] Archive.empty
  have hlen : files.length = Node.leafCount (.folder id name children) := by
    have h := congrArg List.length hleaves
    simp only [List.length_map] at h
    rw [h, Node.length_leavesList]
    simp [Node.leafCount]
  have hcount := length_filterMap_add dc.downloaded files
  have hfails : (fun f => (dc.downloaded f).isNone)
      = (fun f => !(dc.downloadFile f.id).isOk) := funext (downloaded_isNone dc)
  rw [hfails] at hcount
  have happ : ZipEffect.appended
      ((createFolderZipLoop dc archiver files ([], Archive.empty)).1 ++ [ZipEffect.finalize])
      = files.filterMap dc.downloaded := by
    simp only [ZipEffect.appended, List.filterMap_append] at h2 ⊢
    rw [h2]; simp
  refine ⟨files,
    { effects := (createFolderZipLoop dc archiver files ([], Archive.empty)).1
        ++ [ZipEffect.finalize],
      result := (createFolderZipLoop dc archiver files ([], Archive.empty)).2.settle
        archiver },
    hfiles, hleaves, ?_, happ, ?_, ?_, ?_, ?_, ?_⟩
  · simp [createFolderZip, hfiles]
  · simp only [ZipEffect.downloadFileCalls, List.filterMap_append] at h3 ⊢
    rw [h3]; simp
  · simp only [happ]; omega
  · omega
  · constructor
    · simp
    · simp only [List.count_append, h4]
      simp
  · intro haccept hfinal
    obtain ⟨entries, hentries, hlen2⟩ :=
      settle_accepted archiver (files.filterMap dc.downloaded) haccept hfinal
    refine ⟨entries, ?_, ?_⟩
    · simp only [h1]; exact hentries
    · rw [hlen2]; omega

/-- Witness of the amended C7: in the tree `root/A/x.txt`, `root/B/y.txt` the
download of `y.txt` fails; the archiver accepts `A/x.txt` and the job
resolves with it. -/
theorem createFolderZip_partial_failure_witness :
    Node.ListedBy Example.drive (.folder "root" "root" Example.children) ∧
      (Node.folder "root" "root" Example.children).depth ≤ 2 ∧
      (createFolderZip Example.drive Example.archiver 2 "root").map ZipOutcome.result
        = some (.ok [{ name := "A/x.txt", content := "content of x" }]) ∧
      ∃ files out, getAllFilesInFolder Example.drive 2 "root" "" = some (.ok files) ∧
        files.map FileEntry.file = (Node.leavesList [] Example.children).map Leaf.file ∧
        createFolderZip Example.drive Example.archiver 2 "root" = some out ∧
        ZipEffect.appended out.effects = files.filterMap Example.drive.downloaded ∧
        (ZipEffect.appended out.effects).length
          = Node.leafCount (.folder "root" "root" Example.children)
            - (files.filter (fun f => !(Example.drive.downloadFile f.id).isOk)).length :=
  have hlisted : Node.ListedBy Example.drive (.folder "root" "root" Example.children) := by
    simp [Node.ListedBy, Node.ListedByList, Example.drive, Example.children, Node.toDriveFile,
      folderMimeType]
  have hdepth : (Node.folder "root" "root" Example.children).depth ≤ 2 := by
    simp [Node.depth, Node.depthList, Example.children]
  ⟨hlisted, hdepth, rfl,
   (createFolderZip_partial_failure Example.drive Example.archiver 2 "root" "root"
      Example.children hlisted hdepth).elim fun files h =>
     h.elim fun out hout =>
       ⟨files, out, hout.1, hout.2.1, hout.2.2.1, hout.2.2.2.1, hout.2.2.2.2.2.1⟩⟩

end ZipManager

/-! ## Channel registration and renewal -/

namespace RealtimeSync

/-- What `scheduleRenewal` does while `watchInterval` is `null`, as the
constructor leaves it: nothing is cancelled and one timer is set. -/
theorem scheduleRenewal_of_null (self : RealtimeSync) (now : Int)
    (h : self.watchInterval = .null) :
    scheduleRenewal self now
      = [Effect.setTimeout (((parseInt self.expiration).sub now).sub 86400000)] := by
  simp [scheduleRenewal, h, JsVal.truthy]

/-- No method assigns `watchInterval`. -/
theorem watchInterval_unchanged (self : RealtimeSync) (rootFolderId webhookUrl : JsVal)
    (clock : Clock) (watch : Except String WatchData) (stop : Except String Unit)
    (headers : String → JsVal) (sync : Except String Unit) :
    (setupPushNotifications self rootFolderId webhookUrl clock watch).state.watchInterval
        = self.watchInterval ∧
      (stopPushNotifications self stop).state.watchInterval = self.watchInterval ∧
      (handleNotification self headers sync).state.watchInterval = self.watchInterval ∧
      (renewal self rootFolderId webhookUrl clock stop watch).state.watchInterval
        = self.watchInterval := by
  have hstop := (stopPushNotifications_spec self stop).1
  refine ⟨?_, ?_, ?_, ?_⟩
  · cases watch <;> simp [setupPushNotifications]
  · rw [hstop]
  · simp only [handleNotification]
    split
    · rfl
    · split <;> rfl
  · cases watch <;> simp [renewal, setupPushNotifications, hstop]

/-- C11: for every manager state and webhook URL, if the provider's
`files.watch` call fails, `setupPushNotifications` returns `false` (it does
not throw), leaves `channelId`, `resourceId` and `expiration` (every field)
unchanged, sets no renewal timer, and has issued exactly one watch call. -/
theorem setupPushNotifications_failure (self : RealtimeSync) (rootFolderId webhookUrl : JsVal)
    (clock : Clock) (error : String) :
    (setupPushNotifications self rootFolderId webhookUrl clock (.error error)).result
        = .ok false ∧
      (setupPushNotifications self rootFolderId webhookUrl clock (.error error)).state = self ∧
      Effect.timers
          (setupPushNotifications self rootFolderId webhookUrl clock (.error error)).effects
        = [] ∧
      (setupPushNotifications self rootFolderId webhookUrl clock (.error error)).effects
        = [Effect.filesWatch rootFolderId ("channel-" ++ toString clock.nowId) webhookUrl
            (clock.nowExpiration + 604800000)] ∧
      (Effect.watchAddresses
          (setupPushNotifications self rootFolderId webhookUrl clock (.error error)).effects).length
        = 1 := by
  simp [setupPushNotifications, Effect.timers, Effect.watchAddresses]

/-- C12: for every successful `files.watch` response, `setupPushNotifications`
returns `true`, sets `channelId`, `resourceId` and `expiration` to the values
of the response and sets exactly one timer; the one registration it sent
asked for an expiry 604,800,000 ms (7 days) after the clock reading of the
call. -/
theorem setupPushNotifications_success (self : RealtimeSync) (rootFolderId webhookUrl : JsVal)
    (clock : Clock) (data : WatchData) :
    (setupPushNotifications self rootFolderId webhookUrl clock (.ok data)).result = .ok true ∧
      (setupPushNotifications self rootFolderId webhookUrl clock (.ok data)).state.channelId
        = data.id ∧
      (setupPushNotifications self rootFolderId webhookUrl clock (.ok data)).state.resourceId
        = data.resourceId ∧
      (setupPushNotifications self rootFolderId webhookUrl clock (.ok data)).state.expiration
        = data.expiration ∧
      (Effect.timers
          (setupPushNotifications self rootFolderId webhookUrl clock (.ok data)).effects).length
        = 1 ∧
      Effect.watchExpirations
          (setupPushNotifications self rootFolderId webhookUrl clock (.ok data)).effects
        = [clock.nowExpiration + 604800000] ∧
      (setupPushNotifications self rootFolderId webhookUrl clock (.ok data)).effects.head?
        = some (Effect.filesWatch rootFolderId ("channel-" ++ toString clock.nowId) webhookUrl
            (clock.nowExpiration + 7 * 24 * 60 * 60 * 1000)) := by
  refine ⟨rfl, rfl, rfl, rfl, ?_, ?_, rfl⟩
  · simp only [setupPushNotifications, scheduleRenewal, Effect.timers]
    split <;> simp
  · simp only [setupPushNotifications, scheduleRenewal, Effect.watchExpirations]
    split <;> simp

/-- An integer below `2^53` in absolute value is a double: no rounding. -/
theorem ofInt_of_safe (z : Int) (h : z.natAbs < 2 ^ 53) : JsNumber.ofInt z = .int z := by
  have hround : JsNumber.roundDouble z = z := by
    unfold JsNumber.roundDouble
    simp only [if_pos h]
  have hlt : z.natAbs < JsNumber.overflow :=
    Nat.lt_trans h (by unfold JsNumber.overflow; norm_num)
  unfold JsNumber.ofInt
  rw [hround, if_pos hlt]

/-- The delay `scheduleRenewal` computes when the expiration reads as `E` and
both differences are below `2^53` in absolute value. -/
theorem renewTime_of_safe (expiration : JsVal) (t E : Int)
    (hE : parseInt expiration = .int E) (h1 : (E - t).natAbs < 2 ^ 53)
    (h2 : (E - t - 86400000).natAbs < 2 ^ 53) :
    ((parseInt expiration).sub t).sub (24 * 60 * 60 * 1000) = .int (E - t - 86400000) := by
  have hday : (24 * 60 * 60 * 1000 : Int) = 86400000 := by norm_num
  rw [hE, hday]
  simp only [JsNumber.sub]
  rw [ofInt_of_safe _ h1]
  simp only [JsNumber.sub]
  exact ofInt_of_safe _ h2

/-- Counterexample to C13: the expiration is `'9007199254740993'` and the time
is 1,700,000,000,000; `parseInt` gives the double 9,007,199,254,740,992, so
the delay set is 9,005,499,168,340,992 and not
`E - t - 86,400,000 = 9,005,499,168,340,993`. -/
theorem scheduleRenewal_delay_rounded :
    parseInt (.str "9007199254740993") = .int 9007199254740992 ∧
      Effect.timers
          (scheduleRenewal { Example.active with expiration := .str "9007199254740993" }
            1700000000000)
        = [.int 9005499168340992] ∧
      (9007199254740993 : Int) - 1700000000000 - 86400000 = 9005499168340993 ∧
      Effect.timers
          (scheduleRenewal { Example.active with expiration := .str "9007199254740993" }
            1700000000000)
        ≠ [.int ((9007199254740993 : Int) - 1700000000000 - 86400000)] := by
  decide

/-- C13, amended: for every expiration that `parseInt` reads as the integer
`E` (milliseconds) and every current time `t` for which `E - t` and
`E - t - 86,400,000` are below `2^53` in absolute value (so that the
source's doubles hold them exactly, as they do for millisecond timestamps),
`scheduleRenewal` sets one timer, with the delay `E - t - 86,400,000`; the
timer so fires at `t + delay = E - 24h`, and the delay is positive whenever
`E` is more than 24 hours after `t`. -/
theorem scheduleRenewal_delay (self : RealtimeSync) (t E : Int)
    (hE : parseInt self.expiration = .int E) (h1 : (E - t).natAbs < 2 ^ 53)
    (h2 : (E - t - 86400000).natAbs < 2 ^ 53) :
    Effect.timers (scheduleRenewal self t) = [.int (E - t - 86400000)] ∧
      (scheduleRenewal self t).getLast?
        = some (Effect.setTimeout (.int (E - t - 86400000))) ∧
      t + (E - t - 86400000) = E - 24 * 60 * 60 * 1000 ∧
      (t + 86400000 < E → 0 < E - t - 86400000) := by
  have hdelay := renewTime_of_safe self.expiration t E hE h1 h2
  refine ⟨?_, ?_, by omega, by omega⟩
  · simp only [scheduleRenewal, hdelay, Effect.timers]
    split <;> simp
  · simp only [scheduleRenewal, hdelay]
    simp

/-- Witness of the amended C13: the channel `channel-1` expires at
1,700,000,000,000 and the time is 1,699,400,000,000. -/
theorem scheduleRenewal_delay_witness :
    parseInt Example.active.expiration = .int 1700000000000 ∧
      ((1700000000000 : Int) - 1699400000000).natAbs < 2 ^ 53 ∧
      ((1700000000000 : Int) - 1699400000000 - 86400000).natAbs < 2 ^ 53 ∧
      Effect.timers (scheduleRenewal Example.active 1699400000000) = [.int 513600000] ∧
      (0 : Int) < 1700000000000 - 1699400000000 - 86400000 :=
  ⟨by decide, by decide, by decide,
   (scheduleRenewal_delay Example.active 1699400000000 1700000000000 (by decide) (by decide)
      (by decide)).1,
   (scheduleRenewal_delay Example.active 1699400000000 1700000000000 (by decide) (by decide)
      (by decide)).2.2.2 (by decide)⟩

end RealtimeSync

namespace RealtimeSync

/-- Counterexample to C14: a channel is created by
`setupPushNotifications('https://a.example/hook')` while `WEBHOOK_URL` is
`https://b.example/hook`; when the renewal fires, the new registration is
sent for `https://b.example/hook`, not for the URL the channel was created
with. -/
theorem renewal_registers_env_url :
    Effect.watchAddresses
        (setupPushNotifications RealtimeSync.new (.str "root") (.str "https://a.example/hook")
          Example.clock (.ok Example.watchData)).effects
      = [.str "https://a.example/hook"] ∧
    Effect.watchAddresses
        (renewal
          (setupPushNotifications RealtimeSync.new (.str "root")
            (.str "https://a.example/hook") Example.clock (.ok Example.watchData)).state
          (.str "root") (.str "https://b.example/hook") Example.clock (.ok ())
          (.ok Example.watchData)).effects
      ≠ [.str "https://a.example/hook"] := by
  decide

/-- C14, amended: when the renewal timer fires, the manager first stops the
current channel (one `channels.stop` for the identifiers the creating
registration returned, when both are truthy) and then registers again, once,
with the value of `process.env.WEBHOOK_URL`, for every URL that was passed to
the `setupPushNotifications` call that created the channel; the two URLs
agree only when that call was passed the value of `WEBHOOK_URL`. -/
theorem renewal_stop_then_register (self : RealtimeSync) (rootFolderId : JsVal)
    (webhookUrl envWebhookUrl : JsVal) (created fired : Clock) (data : WatchData)
    (stop : Except String Unit) (watch : Except String WatchData) :
    (renewal (setupPushNotifications self rootFolderId webhookUrl created (.ok data)).state
        rootFolderId envWebhookUrl fired stop watch).effects
      = (if data.id.truthy && data.resourceId.truthy
          then [Effect.channelsStop data.id data.resourceId] else [])
        ++ (setupPushNotifications
            (setupPushNotifications self rootFolderId webhookUrl created (.ok data)).state
            rootFolderId envWebhookUrl fired watch).effects ∧
    Effect.watchAddresses
        (renewal (setupPushNotifications self rootFolderId webhookUrl created (.ok data)).state
          rootFolderId envWebhookUrl fired stop watch).effects
      = [envWebhookUrl] := by
  have hstop := stopPushNotifications_spec
    (setupPushNotifications self rootFolderId webhookUrl created (.ok data)).state stop
  have heff : (renewal
        (setupPushNotifications self rootFolderId webhookUrl created (.ok data)).state
        rootFolderId envWebhookUrl fired stop watch).effects
      = (if data.id.truthy && data.resourceId.truthy
          then [Effect.channelsStop data.id data.resourceId] else [])
        ++ (setupPushNotifications
            (setupPushNotifications self rootFolderId webhookUrl created (.ok data)).state
            rootFolderId envWebhookUrl fired watch).effects := by
    simp only [renewal, hstop.1, hstop.2.2]
    rfl
  refine ⟨heff, ?_⟩
  rw [heff]
  cases watch with
  | error e =>
      simp only [setupPushNotifications, Effect.watchAddresses, List.filterMap_append]
      split <;> simp
  | ok d =>
      simp only [setupPushNotifications, scheduleRenewal, Effect.watchAddresses,
        List.filterMap_append]
      split <;> split <;> simp

/-- C15, the code at the failing input: two successful
`setupPushNotifications` calls in a row on a new manager set two timers and
cancel none, and `watchInterval` is still `null` afterwards. -/
theorem setupPushNotifications_twice_two_timers (rootFolderId webhookUrl : JsVal)
    (first second : Clock) (data1 data2 : WatchData) :
    (Effect.timers
        ((setupPushNotifications RealtimeSync.new rootFolderId webhookUrl first
            (.ok data1)).effects ++
          (setupPushNotifications
            (setupPushNotifications RealtimeSync.new rootFolderId webhookUrl first
              (.ok data1)).state
            rootFolderId webhookUrl second (.ok data2)).effects)).length = 2 ∧
    Effect.cancelled
        ((setupPushNotifications RealtimeSync.new rootFolderId webhookUrl first
            (.ok data1)).effects ++
          (setupPushNotifications
            (setupPushNotifications RealtimeSync.new rootFolderId webhookUrl first
              (.ok data1)).state
            rootFolderId webhookUrl second (.ok data2)).effects) = [] ∧
    (setupPushNotifications
        (setupPushNotifications RealtimeSync.new rootFolderId webhookUrl first
          (.ok data1)).state
        rootFolderId webhookUrl second (.ok data2)).state.watchInterval = .null := by
  simp [setupPushNotifications, scheduleRenewal, RealtimeSync.new, JsVal.truthy,
    Effect.timers, Effect.cancelled]

end RealtimeSync

/-! ## Credential lifecycle manager -/

namespace GoogleAuth

/-- Saving a token set asks the provider for no refresh. -/
theorem saveToken_count_refresh (self : GoogleAuth) (store : TokenStore) (tokens : Tokens)
    (now : Int) (answer : InsertAnswer) :
    (saveToken self store tokens now answer).effects.count AuthEffect.refreshAccessToken = 0 := by
  unfold saveToken
  simp only []
  split
  · simp
  · cases answer <;> simp

/-- One call of `refreshToken` asks the provider for a refresh once. -/
theorem refreshToken_count_refresh (self : GoogleAuth) (store : TokenStore)
    (refresh : Except String Tokens) (now : Int) (answer : InsertAnswer) :
    (refreshToken self store refresh now answer).effects.count AuthEffect.refreshAccessToken
      = 1 := by
  cases refresh with
  | error e => simp [refreshToken]
  | ok c => simp [refreshToken, saveToken_count_refresh]

/-- What `loadToken` does once the query has answered with a row. -/
theorem loadToken_of_row (self : GoogleAuth) (store : TokenStore) (env : AuthEnv)
    (row : TokenRow) (hquery : env.queryError = none) (hrow : store.getLast? = some row) :
    loadToken self store env =
      if expired env.nowLoad row.expires_at then
        { auth := (refreshToken
              (self.setCredentials
                { access_token := row.access_token, refresh_token := row.refresh_token,
                  expiry_date := row.expires_at })
              store env.refresh env.nowSave env.insert).auth
          store := (refreshToken
              (self.setCredentials
                { access_token := row.access_token, refresh_token := row.refresh_token,
                  expiry_date := row.expires_at })
              store env.refresh env.nowSave env.insert).store
          effects := AuthEffect.selectLatest :: (refreshToken
              (self.setCredentials
                { access_token := row.access_token, refresh_token := row.refresh_token,
                  expiry_date := row.expires_at })
              store env.refresh env.nowSave env.insert).effects
          result := (refreshToken
              (self.setCredentials
                { access_token := row.access_token, refresh_token := row.refresh_token,
                  expiry_date := row.expires_at })
              store env.refresh env.nowSave env.insert).result.map fun _ => true }
      else
        { auth := self.setCredentials
            { access_token := row.access_token, refresh_token := row.refresh_token,
              expiry_date := row.expires_at }
          store := store, effects := [AuthEffect.selectLatest], result := .ok true } := by
  simp [loadToken, selectLatest, hquery, hrow]

/-- What `loadToken` does when the query answers with an error or no row. -/
theorem loadToken_of_no_row (self : GoogleAuth) (store : TokenStore) (env : AuthEnv)
    (h : env.queryError.isSome = true ∨ store = []) :
    loadToken self store env =
      { auth := self, store := store, effects := [AuthEffect.selectLatest],
        result := .ok false } := by
  rcases h with h | h
  · obtain ⟨e, he⟩ := Option.isSome_iff_exists.mp h
    simp [loadToken, selectLatest, he]
  · cases hq : env.queryError <;> simp [loadToken, selectLatest, hq, h]

end GoogleAuth

namespace GoogleAuth

/-- C16: `loadToken` loads the most recent stored row into the client; if the
row's expiry is at or before the current time it performs exactly one
`refreshToken()` (one `refreshAccessToken` call, after the query) and, when
that completes, returns `true`; if the expiry is in the future it performs no
refresh, leaves the store alone and returns `true` with the row's tokens as
credentials. -/
theorem loadToken_refresh_on_expiry (self : GoogleAuth) (store : TokenStore) (env : AuthEnv)
    (row : TokenRow) (hquery : env.queryError = none) (hrow : store.getLast? = some row) :
    (∀ E : Int, row.expires_at = some E → E ≤ env.nowLoad →
      (loadToken self store env).effects.count AuthEffect.refreshAccessToken = 1 ∧
      (loadToken self store env).effects =
        AuthEffect.selectLatest ::
          (refreshToken
            (self.setCredentials
              { access_token := row.access_token, refresh_token := row.refresh_token,
                expiry_date := row.expires_at })
            store env.refresh env.nowSave env.insert).effects ∧
      ∀ credentials,
        (refreshToken
            (self.setCredentials
              { access_token := row.access_token, refresh_token := row.refresh_token,
                expiry_date := row.expires_at })
            store env.refresh env.nowSave env.insert).result = .ok credentials →
        (loadToken self store env).result = .ok true ∧
        (loadToken self store env).auth.oauth2Client.credentials = credentials) ∧
    (∀ E : Int, row.expires_at = some E → env.nowLoad < E →
      (loadToken self store env).effects = [AuthEffect.selectLatest] ∧
      (loadToken self store env).effects.count AuthEffect.refreshAccessToken = 0 ∧
      (loadToken self store env).result = .ok true ∧
      (loadToken self store env).store = store ∧
      (loadToken self store env).auth.oauth2Client.credentials =
        { access_token := row.access_token, refresh_token := row.refresh_token,
          expiry_date := row.expires_at }) := by
  have hload := loadToken_of_row self store env row hquery hrow
  constructor
  · intro E hE hle
    have hexp : expired env.nowLoad row.expires_at = true := by simp [expired, hE, hle]
    rw [hload, if_pos hexp]
    refine ⟨?_, rfl, ?_⟩
    · simp [refreshToken_count_refresh]
    · intro credentials hres
      refine ⟨by simp [hres, Except.map], ?_⟩
      cases hr : env.refresh with
      | error e => simp [refreshToken, hr] at hres
      | ok c =>
          simp only [refreshToken, hr] at hres ⊢
          have hc : c = credentials := by
            cases hs : (saveToken
                (self.setCredentials
                  { access_token := row.access_token, refresh_token := row.refresh_token,
                    expiry_date := row.expires_at } |>.setCredentials c)
                store c env.nowSave env.insert).result with
            | error e => rw [hs] at hres; simp [Except.map] at hres
            | ok u => rw [hs] at hres; simpa [Except.map] using hres
          subst hc
          unfold saveToken
          simp only []
          split
          · rfl
          · cases env.insert <;> rfl
  · intro E hE hlt
    have hexp : expired env.nowLoad row.expires_at = false := by
      simp [expired, hE, hlt]
    rw [hload, hexp]
    simp [setCredentials]

/-- Witness of C16: the latest row expired at 1000 and the time is 2000; the
refresh and the insert succeed. -/
theorem loadToken_refresh_on_expiry_witness :
    Example.envOk.queryError = none ∧
      [Example.expiredRow].getLast? = some Example.expiredRow ∧
      Example.expiredRow.expires_at = some 1000 ∧ (1000 : Int) ≤ Example.envOk.nowLoad ∧
      (loadToken GoogleAuth.new [Example.expiredRow] Example.envOk).effects.count
          AuthEffect.refreshAccessToken = 1 ∧
      (loadToken GoogleAuth.new [Example.expiredRow] Example.envOk).result = .ok true :=
  ⟨rfl, rfl, rfl, by decide,
   ((loadToken_refresh_on_expiry GoogleAuth.new [Example.expiredRow] Example.envOk
      Example.expiredRow rfl rfl).1 1000 rfl (by decide)).1,
   (((loadToken_refresh_on_expiry GoogleAuth.new [Example.expiredRow] Example.envOk
      Example.expiredRow rfl rfl).1 1000 rfl (by decide)).2.2 Example.freshTokens rfl).1⟩

end GoogleAuth

namespace GoogleAuth

/-- Counterexample to C17: the latest row expired at 1000, the time is 2000 and
the refresh fails with `invalid_grant`; `loadToken` does not return `false`,
it throws that error. -/
theorem loadToken_refresh_failure_throws :
    (loadToken GoogleAuth.new [Example.expiredRow] Example.envRefreshFails).result
        = .error "invalid_grant" ∧
      (loadToken GoogleAuth.new [Example.expiredRow] Example.envRefreshFails).result
        ≠ .ok false := by
  have h : (loadToken GoogleAuth.new [Example.expiredRow] Example.envRefreshFails).result
      = .error "invalid_grant" := rfl
  refine ⟨h, ?_⟩
  rw [h]
  intro hc
  cases hc

/-- C17, amended: `loadToken` returns `false`, rather than `true` or a thrown
error, when the store has no row or the query errors; it then has made the
query only and changed nothing.  When the loaded row is expired and the
refresh it triggers fails, `loadToken` throws the refresh's error (it returns
neither `false` nor `true`); the client then holds the row's expired tokens
and the store is unchanged. -/
theorem loadToken_false_or_throws (self : GoogleAuth) (store : TokenStore) (env : AuthEnv) :
    ((env.queryError.isSome = true ∨ store = []) →
      (loadToken self store env).result = .ok false ∧
      (loadToken self store env).effects = [AuthEffect.selectLatest] ∧
      (loadToken self store env).auth = self ∧
      (loadToken self store env).store = store) ∧
    (∀ (row : TokenRow) (E : Int) (error : String),
      env.queryError = none → store.getLast? = some row → row.expires_at = some E →
      E ≤ env.nowLoad → env.refresh = .error error →
      (loadToken self store env).result = .error error ∧
      (loadToken self store env).effects
        = [AuthEffect.selectLatest, AuthEffect.refreshAccessToken] ∧
      (loadToken self store env).auth.oauth2Client.credentials =
        { access_token := row.access_token, refresh_token := row.refresh_token,
          expiry_date := row.expires_at } ∧
      (loadToken self store env).store = store) := by
  constructor
  · intro h
    rw [loadToken_of_no_row self store env h]
    exact ⟨rfl, rfl, rfl, rfl⟩
  · intro row E error hquery hrow hE hle hrefresh
    have hexp : expired env.nowLoad row.expires_at = true := by simp [expired, hE, hle]
    rw [loadToken_of_row self store env row hquery hrow, if_pos hexp]
    simp [refreshToken, hrefresh, Except.map, setCredentials]

/-- Witness of the amended C17: an empty store gives `false`; an expired row
with a failing refresh gives a thrown error. -/
theorem loadToken_false_or_throws_witness :
    (loadToken GoogleAuth.new [] Example.envOk).result = .ok false ∧
      (loadToken GoogleAuth.new [Example.expiredRow] Example.envQueryFails).result
        = .ok false ∧
      (loadToken GoogleAuth.new [Example.expiredRow] Example.envRefreshFails).result
        = .error "invalid_grant" :=
  ⟨((loadToken_false_or_throws GoogleAuth.new [] Example.envOk).1 (Or.inr rfl)).1,
   ((loadToken_false_or_throws GoogleAuth.new [Example.expiredRow] Example.envQueryFails).1
      (Or.inl rfl)).1,
   ((loadToken_false_or_throws GoogleAuth.new [Example.expiredRow]
      Example.envRefreshFails).2 Example.expiredRow 1000 "invalid_grant" rfl rfl rfl
      (by decide) rfl).1⟩

/-- C18: when the client already holds an in-memory access token,
`isAuthenticated()` returns `true` without querying the store, without
refreshing and without changing the credentials or the store, so any number
of repeated calls return `true`, make no call and leave the manager and the
store exactly as they were; when no in-memory access token is held, it is
exactly `loadToken()`. -/
theorem isAuthenticated_cached (self : GoogleAuth) (store : TokenStore) (env : AuthEnv)
    (envs : List AuthEnv) :
    (self.oauth2Client.credentials.access_token.truthy = true →
      (isAuthenticated self store env).result = .ok true ∧
      (isAuthenticated self store env).effects = [] ∧
      (isAuthenticated self store env).auth = self ∧
      (isAuthenticated self store env).store = store ∧
      isAuthenticatedCalls self store envs
        = (self, store, [], envs.map fun _ => .ok true)) ∧
    (self.oauth2Client.credentials.access_token.truthy = false →
      (isAuthenticated self store env).result = (loadToken self store env).result ∧
      (isAuthenticated self store env).effects = (loadToken self store env).effects ∧
      (isAuthenticated self store env).auth = (loadToken self store env).auth ∧
      (isAuthenticated self store env).store = (loadToken self store env).store) := by
  constructor
  · intro h
    refine ⟨by simp [isAuthenticated, h], by simp [isAuthenticated, h],
      by simp [isAuthenticated, h], by simp [isAuthenticated, h], ?_⟩
    induction envs with
    | nil => rfl
    | cons e rest ih =>
        simp only [isAuthenticatedCalls, isAuthenticated, h, if_true, ih]
        simp
  · intro h
    simp [isAuthenticated, h]

/-- Witness of C18: a client holding `old-access` answers `true` with no
call; a new manager answers what `loadToken` answers. -/
theorem isAuthenticated_cached_witness :
    Example.staleAuth.oauth2Client.credentials.access_token.truthy = true ∧
      (isAuthenticated Example.staleAuth [] Example.envOk).result = .ok true ∧
      (isAuthenticated Example.staleAuth [] Example.envOk).effects = [] ∧
      isAuthenticatedCalls Example.staleAuth [] [Example.envOk, Example.envRefreshFails]
        = (Example.staleAuth, [], [], [.ok true, .ok true]) ∧
      GoogleAuth.new.oauth2Client.credentials.access_token.truthy = false ∧
      (isAuthenticated GoogleAuth.new [Example.validRow] Example.envOk).result
        = (loadToken GoogleAuth.new [Example.validRow] Example.envOk).result :=
  ⟨by decide,
   ((isAuthenticated_cached Example.staleAuth [] Example.envOk []).1 (by decide)).1,
   ((isAuthenticated_cached Example.staleAuth [] Example.envOk []).1 (by decide)).2.1,
   ((isAuthenticated_cached Example.staleAuth [] Example.envOk
      [Example.envOk, Example.envRefreshFails]).1 (by decide)).2.2.2.2,
   by decide,
   ((isAuthenticated_cached GoogleAuth.new [Example.validRow] Example.envOk []).2
      (by decide)).1⟩

end GoogleAuth

namespace GoogleAuth

/-- Once a row is loaded, `loadToken` never returns `false`. -/
theorem loadToken_of_row_ne_false (self : GoogleAuth) (store : TokenStore) (env : AuthEnv)
    (row : TokenRow) (hquery : env.queryError = none) (hrow : store.getLast? = some row) :
    (loadToken self store env).result ≠ .ok false := by
  rw [loadToken_of_row self store env row hquery hrow]
  split
  · simp only []
    cases (refreshToken
        (self.setCredentials
          { access_token := row.access_token, refresh_token := row.refresh_token,
            expiry_date := row.expires_at })
        store env.refresh env.nowSave env.insert).result <;> simp [Except.map]
  · simp

/-- Counterexample to C19: no in-memory token is held, a valid row is
persisted, and the query fails; `isAuthenticated()` is `false` although a
persisted record exists. -/
theorem isAuthenticated_false_with_record :
    (isAuthenticated GoogleAuth.new [Example.validRow] Example.envQueryFails).result
        = .ok false ∧
      ([Example.validRow] : TokenStore) ≠ [] := by
  exact ⟨rfl, by simp⟩

/-- C19, amended: for every manager state and store content,
`isAuthenticated()` is `false` exactly when no in-memory access token is
present and the query of the store gives no row, because no persisted record
exists or because the query fails; and it is `true` whenever `loadToken()`
returns `true`. -/
theorem isAuthenticated_false_iff (self : GoogleAuth) (store : TokenStore) (env : AuthEnv) :
    ((isAuthenticated self store env).result = .ok false ↔
      (self.oauth2Client.credentials.access_token.truthy = false ∧
        (env.queryError.isSome = true ∨ store = []))) ∧
    ((loadToken self store env).result = .ok true →
      (isAuthenticated self store env).result = .ok true) := by
  cases htok : self.oauth2Client.credentials.access_token.truthy with
  | true =>
      have h : (isAuthenticated self store env).result = .ok true := by
        simp [isAuthenticated, htok]
      rw [h]
      simp
  | false =>
      have h : isAuthenticated self store env = loadToken self store env := by
        simp [isAuthenticated, htok]
      rw [h]
      refine ⟨?_, fun hl => hl⟩
      constructor
      · intro hfalse
        refine ⟨rfl, ?_⟩
        cases hq : env.queryError with
        | some e => simp
        | none =>
            cases hrow : store.getLast? with
            | none => exact Or.inr (List.getLast?_eq_none_iff.mp hrow)
            | some row => exact absurd hfalse (loadToken_of_row_ne_false self store env row hq hrow)
      · intro hno
        rw [loadToken_of_no_row self store env hno.2]

/-- Counterexample to C20: the client holds an access token that expired at
1000 and the time is 2000; `isAuthenticated()` answers `true` and
`getClient()` hands out the client with the expired token, and no refresh was
attempted. -/
theorem isAuthenticated_expired_token_true :
    Example.staleAuth.oauth2Client.credentials.expiry_date = some 1000 ∧
      (1000 : Int) ≤ Example.envOk.nowLoad ∧
      (isAuthenticated Example.staleAuth [] Example.envOk).result = .ok true ∧
      (isAuthenticated Example.staleAuth [] Example.envOk).effects.count
          AuthEffect.refreshAccessToken = 0 ∧
      (getClient Example.staleAuth).credentials.access_token = .str "old-access" := by
  exact ⟨rfl, by decide, rfl, by decide, rfl⟩

/-- C20, amended: the expiry of a token is checked only when credentials are
loaded from the store: when `loadToken()` loads a row whose expiry is at or
before the current time it attempts exactly one refresh before it answers.
With an in-memory access token, whatever its `expiry_date` and the time,
`isAuthenticated()` answers `true` without any call, so without a refresh,
and `getClient()` returns the client as it is. -/
theorem expiry_checked_on_load_only (self : GoogleAuth) (store : TokenStore) (env : AuthEnv) :
    (self.oauth2Client.credentials.access_token.truthy = true →
      (isAuthenticated self store env).result = .ok true ∧
      (isAuthenticated self store env).effects = [] ∧
      (isAuthenticated self store env).auth = self) ∧
    getClient self = self.oauth2Client ∧
    (∀ (row : TokenRow) (E : Int),
      self.oauth2Client.credentials.access_token.truthy = false →
      env.queryError = none → store.getLast? = some row → row.expires_at = some E →
      E ≤ env.nowLoad →
      (isAuthenticated self store env).effects.count AuthEffect.refreshAccessToken = 1 ∧
      (isAuthenticated self store env).effects.take 2
        = [AuthEffect.selectLatest, AuthEffect.refreshAccessToken]) := by
  refine ⟨?_, rfl, ?_⟩
  · intro h
    simp [isAuthenticated, h]
  · intro row E htok hquery hrow hE hle
    have hexp : expired env.nowLoad row.expires_at = true := by simp [expired, hE, hle]
    have h : isAuthenticated self store env = loadToken self store env := by
      simp [isAuthenticated, htok]
    rw [h, loadToken_of_row self store env row hquery hrow, if_pos hexp]
    constructor
    · simp [refreshToken_count_refresh]
    · cases hr : env.refresh <;> simp [refreshToken]

/-- Witness of the amended C20: the client holding the token that expired at
1000 answers `true` at time 2000 with no call; a new manager loading the row
that expired at 1000 attempts one refresh. -/
theorem expiry_checked_on_load_only_witness :
    Example.staleAuth.oauth2Client.credentials.access_token.truthy = true ∧
      (isAuthenticated Example.staleAuth [] Example.envOk).effects = [] ∧
      (isAuthenticated GoogleAuth.new [Example.expiredRow] Example.envOk).effects.count
          AuthEffect.refreshAccessToken = 1 :=
  ⟨by decide,
   ((expiry_checked_on_load_only Example.staleAuth [] Example.envOk).1 (by decide)).2.1,
   ((expiry_checked_on_load_only GoogleAuth.new [Example.expiredRow] Example.envOk).2.2
      Example.expiredRow 1000 (by decide) rfl rfl rfl (by decide)).1⟩

end GoogleAuth

/-! ## Persisting credentials -/

namespace GoogleAuth

/-- What `saveToken` does when the row's instant fits a `Date`: one insert of
the tokens with that instant; the manager is not touched and the store keeps
its rows, with the new row after them when the store accepts it. -/
theorem saveToken_in_range (self : GoogleAuth) (store : TokenStore) (tokens : Tokens)
    (now : Int) (answer : InsertAnswer)
    (hrange : (rowExpiry tokens now).natAbs ≤ maxTimeValue.natAbs) :
    (saveToken self store tokens now answer).effects
        = [AuthEffect.insert
            { access_token := tokens.access_token, refresh_token := tokens.refresh_token,
              expires_at := some (rowExpiry tokens now) }] ∧
      (saveToken self store tokens now answer).auth = self ∧
      (saveToken self store tokens now .stored).store
        = store ++ [{ access_token := column tokens.access_token,
                      refresh_token := column tokens.refresh_token,
                      expires_at := some (rowExpiry tokens now) }] ∧
      (saveToken self store tokens now .stored).result = .ok () ∧
      ∃ added, (saveToken self store tokens now answer).store = store ++ added := by
  have hnot : ¬ (rowExpiry tokens now).natAbs > maxTimeValue.natAbs := by omega
  unfold rowExpiry at hnot
  refine ⟨?_, ?_, ?_, ?_, ?_⟩
  · unfold saveToken rowExpiry
    simp only [if_neg hnot]
    cases answer <;> rfl
  · unfold saveToken
    simp only [if_neg hnot]
    cases answer <;> rfl
  · unfold saveToken rowExpiry
    simp only [if_neg hnot]
  · unfold saveToken
    simp only [if_neg hnot]
  · unfold saveToken
    simp only [if_neg hnot]
    cases answer
    · exact ⟨_, rfl⟩
    · exact ⟨[], by simp⟩
    · exact ⟨[], by simp⟩

/-- What `saveToken` does when the row's instant does not fit a `Date`:
`toISOString()` throws before anything is sent. -/
theorem saveToken_out_of_range (self : GoogleAuth) (store : TokenStore) (tokens : Tokens)
    (now : Int) (answer : InsertAnswer)
    (hrange : maxTimeValue.natAbs < (rowExpiry tokens now).natAbs) :
    (saveToken self store tokens now answer).effects = [] ∧
      (saveToken self store tokens now answer).store = store := by
  have hgt : (rowExpiry tokens now).natAbs > maxTimeValue.natAbs := hrange
  unfold rowExpiry at hgt
  unfold saveToken
  simp only [if_pos hgt]
  simp

/-- The row's instant is not before the time of the call when the token
set's `expiry_date` is missing or not negative. -/
theorem rowExpiry_ge (tokens : Tokens) (now : Int)
    (hexp : ∀ e, tokens.expiry_date = some e → 0 ≤ e) : now ≤ rowExpiry tokens now := by
  unfold rowExpiry
  cases h : tokens.expiry_date with
  | none => simp
  | some e =>
      have := hexp e h
      simp only []
      split <;> omega

/-- C21: for every successful provider refresh response whose `expiry_date` is
absent or a non-negative number of milliseconds, every row `refreshToken()`
asks the store to insert, and every row it adds to the store, has an
`expires_at` that is not earlier than the time of the call. -/
theorem refreshToken_expiry_not_past (self : GoogleAuth) (store : TokenStore)
    (credentials : Tokens) (now : Int) (answer : InsertAnswer)
    (hexp : ∀ e, credentials.expiry_date = some e → 0 ≤ e) :
    (∀ row ∈ AuthEffect.inserted
        (refreshToken self store (.ok credentials) now answer).effects,
      ∃ x, row.expires_at = some x ∧ now ≤ x) ∧
    (∀ row ∈ (refreshToken self store (.ok credentials) now answer).store,
      row ∈ store ∨ ∃ x, row.expires_at = some x ∧ now ≤ x) := by
  have hge := rowExpiry_ge credentials now hexp
  by_cases hrange : (rowExpiry credentials now).natAbs ≤ maxTimeValue.natAbs
  · obtain ⟨heff, _, _, _, _⟩ :=
      saveToken_in_range (self.setCredentials credentials) store credentials now answer hrange
    constructor
    · intro row hrow
      simp only [refreshToken, heff, AuthEffect.inserted] at hrow
      simp at hrow
      exact ⟨rowExpiry credentials now, by rw [hrow], hge⟩
    · intro row hrow
      have hnot : ¬ (rowExpiry credentials now).natAbs > maxTimeValue.natAbs := by omega
      unfold rowExpiry at hnot
      simp only [refreshToken] at hrow
      unfold saveToken at hrow
      simp only [if_neg hnot] at hrow
      cases answer with
      | stored =>
          simp only [List.mem_append, List.mem_singleton] at hrow
          rcases hrow with h | h
          · exact Or.inl h
          · exact Or.inr ⟨rowExpiry credentials now, by rw [h]; rfl, hge⟩
      | refused e => exact Or.inl hrow
      | thrown e => exact Or.inl hrow
  · have hout := saveToken_out_of_range (self.setCredentials credentials) store credentials
      now answer (by omega)
    constructor
    · intro row hrow
      simp only [refreshToken, hout.1, AuthEffect.inserted] at hrow
      simp at hrow
    · intro row hrow
      simp only [refreshToken, hout.2] at hrow
      exact Or.inl hrow

/-- Witness of C21: the provider's refresh answers with an expiry of
5,000,000 at time 2001 and the store accepts the row. -/
theorem refreshToken_expiry_not_past_witness :
    (∀ e, Example.freshTokens.expiry_date = some e → 0 ≤ e) ∧
      (refreshToken GoogleAuth.new [] (.ok Example.freshTokens) 2001 .stored).store
        = [{ access_token := .str "new-access", refresh_token := .str "refresh-1",
             expires_at := some 5002001 }] ∧
      (∀ row ∈ (refreshToken GoogleAuth.new [] (.ok Example.freshTokens) 2001 .stored).store,
        row ∈ ([] : TokenStore) ∨ ∃ x, row.expires_at = some x ∧ 2001 ≤ x) :=
  have hexp : ∀ e, Example.freshTokens.expiry_date = some e → 0 ≤ e := by
    intro e he
    simp [Example.freshTokens] at he
    omega
  ⟨hexp, rfl,
   (refreshToken_expiry_not_past GoogleAuth.new [] Example.freshTokens 2001 .stored hexp).2⟩

end GoogleAuth

namespace GoogleAuth

/-- C22: `getTokenFromCode(code)`: if the provider accepts the code (with
tokens whose expiry fits a `Date`), the returned tokens are set as the
client's credentials and exactly one insert is sent, of a row carrying their
access and refresh token; no existing row is changed or removed, and when the
store accepts the row the store is the old one followed by it and the tokens
are returned.  If the provider rejects the code, the call fails with that
error, nothing is inserted and the credentials and the store are
unchanged. -/
theorem getTokenFromCode_outcomes (self : GoogleAuth) (store : TokenStore) (code : String)
    (tokens : Tokens) (error : String) (now : Int) (answer : InsertAnswer)
    (hrange : (rowExpiry tokens now).natAbs ≤ maxTimeValue.natAbs) :
    ((getTokenFromCode self store code (.ok tokens) now answer).auth.oauth2Client.credentials
        = tokens ∧
      (getTokenFromCode self store code (.ok tokens) now answer).effects
        = [AuthEffect.getToken code,
           AuthEffect.insert
            { access_token := tokens.access_token, refresh_token := tokens.refresh_token,
              expires_at := some (rowExpiry tokens now) }] ∧
      (AuthEffect.inserted
        (getTokenFromCode self store code (.ok tokens) now answer).effects).length = 1 ∧
      (∃ added, (getTokenFromCode self store code (.ok tokens) now answer).store
        = store ++ added) ∧
      (getTokenFromCode self store code (.ok tokens) now .stored).store
        = store ++ [{ access_token := column tokens.access_token,
                      refresh_token := column tokens.refresh_token,
                      expires_at := some (rowExpiry tokens now) }] ∧
      (getTokenFromCode self store code (.ok tokens) now .stored).result = .ok tokens) ∧
    ((getTokenFromCode self store code (.error error) now answer).result = .error error ∧
      AuthEffect.inserted
        (getTokenFromCode self store code (.error error) now answer).effects = [] ∧
      (getTokenFromCode self store code (.error error) now answer).effects
        = [AuthEffect.getToken code] ∧
      (getTokenFromCode self store code (.error error) now answer).auth = self ∧
      (getTokenFromCode self store code (.error error) now answer).store = store) := by
  obtain ⟨heff, hauth, _, _, hstore⟩ :=
    saveToken_in_range (self.setCredentials tokens) store tokens now answer hrange
  obtain ⟨_, _, hstored, hresult, _⟩ :=
    saveToken_in_range (self.setCredentials tokens) store tokens now .stored hrange
  refine ⟨⟨?_, ?_, ?_, ?_, ?_, ?_⟩, ?_⟩
  · simp only [getTokenFromCode]
    rw [hauth]
    rfl
  · simp [getTokenFromCode, heff]
  · simp [getTokenFromCode, heff, AuthEffect.inserted]
  · simpa [getTokenFromCode] using hstore
  · simp [getTokenFromCode, hstored]
  · simp [getTokenFromCode, hresult, Except.map]
  · simp [getTokenFromCode, AuthEffect.inserted]

/-- Witness of C22: the code is exchanged at time 1,700,000,000,000 for the
tokens `A`, `R`; the store already holds a row. -/
theorem getTokenFromCode_outcomes_witness :
    (rowExpiry Example.providerTokens 1700000000000).natAbs ≤ maxTimeValue.natAbs ∧
      (getTokenFromCode GoogleAuth.new [Example.expiredRow] "code-1"
          (.ok Example.providerTokens) 1700000000000 .stored).store
        = [Example.expiredRow] ++
          [{ access_token := column Example.providerTokens.access_token,
             refresh_token := column Example.providerTokens.refresh_token,
             expires_at := some (rowExpiry Example.providerTokens 1700000000000) }] ∧
      (getTokenFromCode GoogleAuth.new [Example.expiredRow] "code-1"
          (.error "invalid_grant") 1700000000000 .stored).store = [Example.expiredRow] :=
  ⟨by decide,
   (getTokenFromCode_outcomes GoogleAuth.new [Example.expiredRow] "code-1"
      Example.providerTokens "invalid_grant" 1700000000000 .stored (by decide)).1.2.2.2.2.1,
   (getTokenFromCode_outcomes GoogleAuth.new [Example.expiredRow] "code-1"
      Example.providerTokens "invalid_grant" 1700000000000 .stored (by decide)).2.2.2.2.2⟩

/-- C25, the code at the failing input: the tokens `A`, `R` with the absolute
`expiry_date` 1,700,003,600,000 are saved at time 1,700,000,000,000 and
loaded one second later; the credentials installed carry `A` and `R`, but
the `expiry_date` 3,400,003,600,000, the sum of the time of the save and the
saved `expiry_date`, and no refresh is attempted. -/
theorem saveThenLoad_expiry_shifted :
    (saveThenLoad GoogleAuth.new [] Example.providerTokens 1700000000000
        Example.envLater).auth.oauth2Client.credentials
      = { access_token := .str "A", refresh_token := .str "R",
          expiry_date := some 3400003600000 } ∧
    (saveThenLoad GoogleAuth.new [] Example.providerTokens 1700000000000
        Example.envLater).auth.oauth2Client.credentials.expiry_date
      ≠ Example.providerTokens.expiry_date ∧
    (3400003600000 : Int) = 1700000000000 + 1700003600000 ∧
    (saveThenLoad GoogleAuth.new [] Example.providerTokens 1700000000000
        Example.envLater).effects = [AuthEffect.selectLatest] := by
  decide

end GoogleAuth

namespace ZipManager

/-- Counterexample to C23: once the upload creates `zip-1` and the permission
grant fails with `forbidden`, once the upload itself fails with `forbidden`;
the caller receives the same thrown error both times, and no file id. -/
theorem uploadZipToDrive_same_result :
    (uploadZipToDrive [] "arquivos.zip" "parent-1" (.ok Example.createdFile)
        (.error "forbidden")).result = .error "forbidden" ∧
      (uploadZipToDrive [] "arquivos.zip" "parent-1" (.error "forbidden")
        (.ok ())).result = .error "forbidden" ∧
      (uploadZipToDrive [] "arquivos.zip" "parent-1" (.ok Example.createdFile)
        (.error "forbidden")).result
        = (uploadZipToDrive [] "arquivos.zip" "parent-1" (.error "forbidden")
            (.ok ())).result :=
  ⟨rfl, rfl, rfl⟩

/-- C23, amended: `uploadZipToDrive` returns the created file's data only when
both `files.create` and `permissions.create` succeed.  When `files.create`
succeeds and `permissions.create` fails, it throws the error of the
permission call and returns nothing, so the caller does not receive the id
of the file that was created; when `files.create` fails it throws that
error without asking for a permission.  Both failures reach the caller as a
thrown error only. -/
theorem uploadZipToDrive_outcomes (buffer : List ZipEntry) (zipName parentFolderId : String)
    (data : CreatedFile) (error : String) (permission : Except String Unit) :
    (uploadZipToDrive buffer zipName parentFolderId (.ok data) (.ok ())).result = .ok data ∧
      (uploadZipToDrive buffer zipName parentFolderId (.ok data) (.error error)).result
        = .error error ∧
      (uploadZipToDrive buffer zipName parentFolderId (.ok data) (.error error)).effects
        = [UploadEffect.filesCreate zipName parentFolderId buffer,
           UploadEffect.permissionsCreate data.id] ∧
      (uploadZipToDrive buffer zipName parentFolderId (.error error) permission).result
        = .error error ∧
      (uploadZipToDrive buffer zipName parentFolderId (.error error) permission).effects
        = [UploadEffect.filesCreate zipName parentFolderId buffer] :=
  ⟨rfl, rfl, rfl, rfl, rfl⟩

end ZipManager

namespace ZipManager

/-- Counterexample to C24: the request `['x', 'y']` is run twice; in the first
job `x` fails and in the second `y` fails, for different reasons, and both
jobs return the same result, an archive with the one entry `f`. -/
theorem createZip_different_failures_same_result :
    Example.driveXFails.fails "x" = true ∧ Example.driveXFails.fails "y" = false ∧
      Example.driveYFails.fails "x" = false ∧ Example.driveYFails.fails "y" = true ∧
      (createZip Example.driveXFails Example.archiver ["x", "y"]).result
        = (createZip Example.driveYFails Example.archiver ["x", "y"]).result ∧
      (createZip Example.driveXFails Example.archiver ["x", "y"]).result
        = .ok [{ name := "f", content := "c" }] :=
  ⟨by decide, by decide, by decide, by decide, rfl, rfl⟩

/-- C24, amended: the result `createZip` and `createFolderZip` return to the
caller carries no per-item outcome: it is settled by the entries handed to
the archiver alone.  A failed item is left out (and logged), so two jobs
over the same request that hand the same entries to the archiver return the
same result, whichever items failed and for whatever reason; for
`createFolderZip` this holds for two jobs with the same enumeration. -/
theorem archive_result_entries_only (dc other : DriveClient) (archiver : Archiver)
    (fileIds : List String) (fuel : Nat) (folderId : String) :
    (fileIds.filterMap other.fetched = fileIds.filterMap dc.fetched →
      (createZip other archiver fileIds).result = (createZip dc archiver fileIds).result) ∧
    (∀ files,
      getAllFilesInFolder dc fuel folderId "" = some (.ok files) →
      getAllFilesInFolder other fuel folderId "" = some (.ok files) →
      files.filterMap other.downloaded = files.filterMap dc.downloaded →
      (createFolderZip other archiver fuel folderId).map ZipOutcome.result
        = (createFolderZip dc archiver fuel folderId).map ZipOutcome.result) := by
  have hzip : ∀ d : DriveClient, (createZip d archiver fileIds).result
      = (Archive.empty.appendAll archiver (fileIds.filterMap d.fetched)).settle archiver := by
    intro d
    simp only [createZip, (createZipLoop_spec d archiver fileIds [] Archive.empty).1]
  have hfolder : ∀ (d : DriveClient) (files : List FileEntry),
      getAllFilesInFolder d fuel folderId "" = some (.ok files) →
      (createFolderZip d archiver fuel folderId).map ZipOutcome.result
        = some ((Archive.empty.appendAll archiver (files.filterMap d.downloaded)).settle
            archiver) := by
    intro d files hfiles
    have hno := getAllFilesInFolder_no_folder d fuel folderId "" files hfiles
    have h1 := (createFolderZipLoop_spec d archiver files hno [] Archive.empty).1
    simp only [createFolderZip, hfiles, Option.map_some', h1]
  refine ⟨?_, ?_⟩
  · intro hsame
    rw [hzip other, hzip dc, hsame]
  · intro files hdc hother hsame
    rw [hfolder other files hother, hfolder dc files hdc, hsame]

/-- Witness of the amended C24: the two jobs over `['x', 'y']` of the
counterexample hand the same entry to the archiver, from different items;
and so do two jobs over the folder `dup`, whose two files are both named
`f.txt`, when the download of the one or of the other fails. -/
theorem archive_result_entries_only_witness :
    ["x", "y"].filterMap Example.driveYFails.fetched
        = ["x", "y"].filterMap Example.driveXFails.fetched ∧
      (createZip Example.driveYFails Example.archiver ["x", "y"]).result
        = (createZip Example.driveXFails Example.archiver ["x", "y"]).result ∧
      getAllFilesInFolder Example.folderXFails 1 "dup" ""
        = some (.ok [{ id := "x", name := "f.txt", path := "f.txt", mimeType := "text/plain" },
                     { id := "y", name := "f.txt", path := "f.txt", mimeType := "text/plain" }]) ∧
      (createFolderZip Example.folderYFails Example.archiver 1 "dup").map ZipOutcome.result
        = (createFolderZip Example.folderXFails Example.archiver 1 "dup").map
            ZipOutcome.result ∧
      (createFolderZip Example.folderXFails Example.archiver 1 "dup").map ZipOutcome.result
        = some (.ok [{ name := "f.txt", content := "c" }]) :=
  ⟨by decide,
   (archive_result_entries_only Example.driveXFails Example.driveYFails Example.archiver
      ["x", "y"] 1 "dup").1 (by decide),
   rfl,
   (archive_result_entries_only Example.folderXFails Example.folderYFails Example.archiver
      ["x", "y"] 1 "dup").2 _ rfl rfl (by decide),
   rfl⟩

end ZipManager

/-! ## Rename route -/

namespace Server

/-- The last `/` of a path that ends in `/` is its last character. -/
theorem lastIndexOf_slash_end (s : String) :
    lastIndexOf (s ++ "/") '/' + 1 = ((s ++ "/").data.length : Int) := by
  have hdata : (s ++ "/").data = s.data ++ ['/'] := by simp [String.data_append]
  unfold lastIndexOf
  simp only [hdata, List.reverse_append, List.reverse_cons, List.reverse_nil, List.nil_append,
    List.singleton_append, List.indexOf_cons_self, List.length_append, List.length_singleton]
  simp

/-- The substring from 0 to the length is the whole string. -/
theorem substring_zero_length (s : String) :
    substring s 0 (s.data.length : Int) = s := by
  unfold substring
  apply String.ext
  simp

/-- The last `/` of `P ++ name` is the last character of `P` when `P` ends in
`/` and `name` holds no `/`. -/
theorem lastIndexOf_parent (parent name : String) (pre : List Char)
    (hparent : parent.data = pre ++ ['/']) (hname : '/' ∉ name.data) :
    lastIndexOf (parent ++ name) '/' + 1 = (parent.data.length : Int) := by
  have hrev : (parent ++ name).data.reverse = name.data.reverse ++ ('/' :: pre.reverse) := by
    simp [String.data_append, hparent]
  have hnot : '/' ∉ name.data.reverse := by simpa using hname
  unfold lastIndexOf
  rw [hrev, List.indexOf_append_of_not_mem hnot, List.indexOf_cons_self]
  simp only [String.data_append, hparent, List.length_append, List.length_reverse,
    List.length_singleton, List.length_cons]
  split
  · push_cast; omega
  · omega

/-- For a file path `P + name`, with `P` ending in `/` and no `/` in `name`,
the rename target is `P + newName`. -/
theorem renameTarget_file (parent name newName : String) (type : JsVal) (pre : List Char)
    (hparent : parent.data = pre ++ ['/']) (hname : '/' ∉ name.data)
    (htype : type ≠ .str "folder") :
    renameTarget (listedFilePath parent name) newName type = parent ++ newName := by
  unfold renameTarget listedFilePath
  simp only [lastIndexOf_parent parent name pre hparent hname, if_neg htype]
  have hsub : substring (parent ++ name) 0 (parent.data.length : Int) = parent := by
    unfold substring
    apply String.ext
    simp [String.data_append]
  rw [hsub]
  simp

/-- C26, the code at the failing input: for every folder path of the form
`P + name + '/'`, the form the listing route produces, and every new name
`n`, the rename route computes the target `P + name + '/' + n + '/'`, inside
the folder to rename, not the sibling `P + n + '/'`: for `Documentos/A/` and
`B` the target is `Documentos/A/B/` and the child `c.txt` is moved from
`Documentos/A/c.txt` to `Documentos/A/B/c.txt`. -/
theorem renameTarget_folder_nested (parent name newName : String) :
    renameTarget (listedFolderPath parent name) newName (.str "folder")
        = parent ++ name ++ "/" ++ newName ++ "/" ∧
      renameTarget (listedFolderPath "Documentos/" "A") "B" (.str "folder")
        = "Documentos/A/B/" ∧
      renameTarget (listedFolderPath "Documentos/" "A") "B" (.str "folder")
        ≠ "Documentos/" ++ "B" ++ "/" ∧
      rename { oldPath := some "Documentos/A/", newName := some "B", type := .str "folder" }
          (.ok (some ["c.txt"])) (fun _ _ => none)
        = ([StorageEffect.list "Documentos/A/",
            StorageEffect.move "Documentos/A/c.txt" "Documentos/A/B/c.txt"],
           RenameResponse.renamed "Documentos/A/B/") := by
  refine ⟨?_, by decide, by decide, by decide⟩
  unfold renameTarget listedFolderPath
  rw [lastIndexOf_slash_end (parent ++ name), substring_zero_length]
  simp

end Server

/-! ## Requests of the enumeration -/

namespace ZipManager

/-- The traced loop returns what the loop returns. -/
theorem getAllFilesLoopTraced_result
    (traced : String → String → Option (List ListRequest × Except String (List FileEntry)))
    (recur : String → String → Option (Except String (List FileEntry)))
    (hrecur : ∀ id base, (traced id base).map Prod.snd = recur id base)
    (base : String) (files : List DriveFile) :
    ∀ (calls : List ListRequest) (results : List FileEntry),
      (getAllFilesLoopTraced traced base files calls results).map Prod.snd
        = getAllFilesLoop recur base files results := by
  induction files with
  | nil => intro calls results; simp [getAllFilesLoopTraced, getAllFilesLoop]
  | cons f rest ih =>
      intro calls results
      simp only [getAllFilesLoopTraced, getAllFilesLoop]
      by_cases hm : f.mimeType = folderMimeType
      · simp only [if_pos hm]
        have h := hrecur f.id (if base ≠ "" then base ++ "/" ++ f.name else f.name)
        cases ht : traced f.id (if base ≠ "" then base ++ "/" ++ f.name else f.name) with
        | none =>
            rw [ht] at h
            simp only [Option.map_none'] at h
            rw [← h]
            rfl
        | some r =>
            rw [ht] at h
            simp only [Option.map_some'] at h
            obtain ⟨subCalls, res⟩ := r
            cases res with
            | error e => simp only [] at h ⊢; rw [← h]; simp
            | ok sub => simp only [] at h ⊢; rw [← h]; exact ih _ _
      · simp only [if_neg hm]
        exact ih _ _

/-- The traced enumeration returns what the enumeration returns. -/
theorem getAllFilesInFolderTraced_result (dc : DriveClient) (fuel : Nat) :
    ∀ (id base : String),
      (getAllFilesInFolderTraced dc fuel id base).map Prod.snd
        = getAllFilesInFolder dc fuel id base := by
  induction fuel with
  | zero => intro id base; simp [getAllFilesInFolderTraced, getAllFilesInFolder]
  | succ n ih =>
      intro id base
      simp only [getAllFilesInFolderTraced, getAllFilesInFolder]
      cases dc.list id with
      | error e => simp
      | ok files => exact getAllFilesLoopTraced_result _ _ ih base _ _ _

/-- The requests of the loop over the children of a folder of a listed
tree: one per folder below, each before those of its subfolders. -/
theorem getAllFilesLoopTraced_calls (dc : DriveClient) (fuel : Nat)
    (ih : ∀ (id base : String) (cs : List Node),
      dc.list id = .ok (some (cs.map Node.toDriveFile)) → Node.ListedByList dc cs →
      Node.depthList cs < fuel →
      ∃ es, getAllFilesInFolderTraced dc fuel id base
        = some ((id :: Node.folderIdsList cs).map listRequest, .ok es))
    (base : String) (cs : List Node)
    (hL : Node.ListedByList dc cs) (hd : Node.depthList cs ≤ fuel) :
    ∀ (calls : List ListRequest) (results : List FileEntry),
      ∃ es, getAllFilesLoopTraced (getAllFilesInFolderTraced dc fuel) base
          (cs.map Node.toDriveFile) calls results
        = some (calls ++ (Node.folderIdsList cs).map listRequest, .ok es) := by
  induction cs with
  | nil => intro calls results; exact ⟨results, by simp [getAllFilesLoopTraced, Node.folderIdsList]⟩
  | cons c cs ihcs =>
      intro calls results
      simp only [Node.ListedByList] at hL
      simp only [Node.depthList] at hd
      have hdcs : Node.depthList cs ≤ fuel := le_trans (le_max_right _ _) hd
      have hdc : Node.depth c ≤ fuel := le_trans (le_max_left _ _) hd
      cases c with
      | file id name mimeType =>
          have hm : mimeType ≠ folderMimeType := by simpa [Node.ListedBy] using hL.1
          simp only [List.map_cons, Node.toDriveFile, getAllFilesLoopTraced, if_neg hm]
          obtain ⟨es, hes⟩ := ihcs hL.2 hdcs calls
            (results ++ [{ id := id, name := name,
                           path := if base ≠ "" then base ++ "/" ++ name else name,
                           mimeType := mimeType }])
          exact ⟨es, by rw [hes]; simp [Node.folderIdsList, Node.folderIds]⟩
      | folder id name ch =>
          have hl := hL.1
          simp only [Node.ListedBy] at hl
          simp only [Node.depth] at hdc
          obtain ⟨sub, hsub⟩ :=
            ih id (if base ≠ "" then base ++ "/" ++ name else name) ch hl.1 hl.2 (by omega)
          obtain ⟨es, hes⟩ := ihcs hL.2 hdcs
            (calls ++ (id :: Node.folderIdsList ch).map listRequest) (results ++ sub)
          refine ⟨es, ?_⟩
          simp only [List.map_cons, Node.toDriveFile, getAllFilesLoopTraced, if_true]
          rw [hsub]
          simp only []
          rw [hes]
          simp [Node.folderIdsList, Node.folderIds]

/-- The requests of the enumeration of a listed tree: one per folder, the
root first. -/
theorem getAllFilesInFolderTraced_calls (dc : DriveClient) (fuel : Nat) :
    ∀ (id base : String) (cs : List Node),
      dc.list id = .ok (some (cs.map Node.toDriveFile)) → Node.ListedByList dc cs →
      Node.depthList cs < fuel →
      ∃ es, getAllFilesInFolderTraced dc fuel id base
        = some ((id :: Node.folderIdsList cs).map listRequest, .ok es) := by
  induction fuel with
  | zero => intro id base cs _ _ hd; omega
  | succ n ih =>
      intro id base cs hlist hL hd
      obtain ⟨es, hes⟩ :=
        getAllFilesLoopTraced_calls dc n ih base cs hL (by omega) [listRequest id] []
      refine ⟨es, ?_⟩
      simp only [getAllFilesInFolderTraced, hlist, Option.getD_some]
      simpa using hes

end ZipManager

namespace ZipManager

/-- Pages after the first never reach the Drive client. -/
theorem ofPages_first_page (pages : PagedListing) (getFile : String → Except String FileInfo)
    (downloadFile : String → Except String ReadStream) :
    DriveClient.ofPages (fun folderId => (pages folderId).take 1) getFile downloadFile
      = DriveClient.ofPages pages getFile downloadFile := by
  unfold DriveClient.ofPages
  congr 1
  funext folderId
  cases h : pages folderId <;> simp [h]

/-- C27: `getAllFilesInFolder` sends exactly one `files.list` request per
folder visited, the root first, each with `pageSize` 1000 and without a page
token, so it never asks for a further page: in front of a provider that
serves a folder's children over several pages, the result holds one entry
per leaf file reachable through first pages only, and it is the same as if
the later pages did not exist. -/
theorem getAllFilesInFolder_first_page_only (pages : PagedListing)
    (getFile : String → Except String FileInfo)
    (downloadFile : String → Except String ReadStream)
    (fuel : Nat) (id name : String) (children : List Node)
    (hlisted : Node.ListedBy (DriveClient.ofPages pages getFile downloadFile)
      (.folder id name children))
    (hdepth : (Node.folder id name children).depth ≤ fuel) :
    ∃ entries,
      getAllFilesInFolderTraced (DriveClient.ofPages pages getFile downloadFile) fuel id ""
        = some ((id :: Node.folderIdsList children).map listRequest, .ok entries) ∧
      (∀ r ∈ (id :: Node.folderIdsList children).map listRequest,
        r.pageSize = 1000 ∧ r.pageToken = none) ∧
      entries.map FileEntry.file = (Node.leavesList [] children).map Leaf.file ∧
      children.map Node.toDriveFile = (pages id).headD [] ∧
      getAllFilesInFolderTraced
          (DriveClient.ofPages (fun folderId => (pages folderId).take 1) getFile downloadFile)
          fuel id ""
        = getAllFilesInFolderTraced (DriveClient.ofPages pages getFile downloadFile)
            fuel id "" := by
  simp only [Node.ListedBy] at hlisted
  simp only [Node.depth] at hdepth
  obtain ⟨es, hes⟩ := getAllFilesInFolderTraced_calls _ fuel id "" children
    hlisted.1 hlisted.2 (by omega)
  obtain ⟨es2, hes2, hfiles⟩ := getAllFilesInFolder_files _ fuel id "" [] children
    hlisted.1 hlisted.2 (by omega)
  have hproj := getAllFilesInFolderTraced_result
    (DriveClient.ofPages pages getFile downloadFile) fuel id ""
  rw [hes, hes2] at hproj
  simp only [Option.map_some', Option.some.injEq, Except.ok.injEq] at hproj
  refine ⟨es, hes, ?_, ?_, ?_, ?_⟩
  · intro r hr
    obtain ⟨f, _, hf⟩ := List.mem_map.mp hr
    rw [← hf]
    exact ⟨rfl, rfl⟩
  · rw [hproj]; exact hfiles
  · have h := hlisted.1
    simp only [DriveClient.ofPages, Except.ok.injEq, Option.some.injEq] at h
    exact h.symm
  · rw [ofPages_first_page]

/-- Witness of C27: the provider serves the children of `big` in two pages;
one request is sent and only `x.txt`, of the first page, is returned. -/
theorem getAllFilesInFolder_first_page_only_witness :
    Node.ListedBy Example.pagedDrive
        (.folder "big" "big" [.file "x" "x.txt" "text/plain"]) ∧
      (Node.folder "big" "big" [.file "x" "x.txt" "text/plain"]).depth ≤ 1 ∧
      Example.pages "big"
        = [[{ id := "x", name := "x.txt", mimeType := "text/plain" }],
           [{ id := "z", name := "z.txt", mimeType := "text/plain" }]] ∧
      getAllFilesInFolderTraced Example.pagedDrive 1 "big" ""
        = some ([listRequest "big"],
            .ok [{ id := "x", name := "x.txt", path := "x.txt", mimeType := "text/plain" }]) ∧
      ∃ entries,
        getAllFilesInFolderTraced Example.pagedDrive 1 "big" ""
          = some (("big" :: Node.folderIdsList [.file "x" "x.txt" "text/plain"]).map
              listRequest, .ok entries) ∧
        entries.map FileEntry.file
          = (Node.leavesList [] [.file "x" "x.txt" "text/plain"]).map Leaf.file :=
  have hlisted : Node.ListedBy Example.pagedDrive
      (.folder "big" "big" [.file "x" "x.txt" "text/plain"]) := by
    simp [Node.ListedBy, Node.ListedByList, Example.pagedDrive, Example.pages,
      DriveClient.ofPages, Node.toDriveFile, folderMimeType]
  have hdepth : (Node.folder "big" "big" [.file "x" "x.txt" "text/plain"]).depth ≤ 1 := by
    simp [Node.depth, Node.depthList]
  have h := getAllFilesInFolder_first_page_only Example.pages (fun _ => .error "unused")
    (fun _ => .error "unused") 1 "big" "big" [.file "x" "x.txt" "text/plain"] hlisted hdepth
  ⟨hlisted, hdepth, rfl, rfl,
   h.elim fun entries he => ⟨entries, he.1, he.2.2.1⟩⟩

end ZipManager

/-! ## Path normalisation -/

namespace Server

/-- A string starts with `p` exactly when its characters are those of `p`
followed by others. -/
theorem startsWith_iff (s p : String) :
    startsWith s p = true ↔ ∃ rest, s.data = p.data ++ rest := by
  unfold startsWith
  rw [ List.isPrefixOf_iff_prefix]
  constructor
  · rintro ⟨t, ht⟩; exact ⟨t, ht.symm⟩
  · rintro ⟨t, ht⟩; exact ⟨t, ht.symm⟩

/-- A string ends with `p` exactly when its characters are others followed by
those of `p`. -/
theorem endsWith_iff (s p : String) :
    endsWith s p = true ↔ ∃ init, s.data = init ++ p.data := by
  unfold endsWith
  rw [ List.isPrefixOf_iff_prefix, List.reverse_prefix]
  constructor
  · rintro ⟨t, ht⟩; exact ⟨t, ht.symm⟩
  · rintro ⟨t, ht⟩; exact ⟨t, ht.symm⟩

/-- Appending keeps the start of a string. -/
theorem startsWith_append (s t p : String) (h : startsWith s p = true) :
    startsWith (s ++ t) p = true := by
  obtain ⟨rest, hrest⟩ := (startsWith_iff s p).mp h
  exact (startsWith_iff _ _).mpr ⟨rest ++ t.data, by simp [String.data_append, hrest]⟩

/-- A string to which `p` was appended ends with `p`. -/
theorem endsWith_append_self (s p : String) : endsWith (s ++ p) p = true :=
  (endsWith_iff _ _).mpr ⟨s.data, by simp [String.data_append]⟩

/-- The last step of `normalizePath` on a string that starts with
`Documentos/`. -/
theorem finish_shape (prefixed : String) (h : startsWith prefixed "Documentos/" = true) :
    startsWith (if !endsWith prefixed "/" then prefixed ++ "/" else prefixed) "Documentos/"
        = true ∧
      endsWith (if !endsWith prefixed "/" then prefixed ++ "/" else prefixed) "/" = true := by
  cases he : endsWith prefixed "/" with
  | true => simp [h, he]
  | false => simp [startsWith_append prefixed "/" "Documentos/" h, endsWith_append_self]

/-- The third step of `normalizePath` gives a string that starts with
`Documentos/`. -/
theorem prefixed_shape (stripped : String) :
    startsWith
        (if !startsWith stripped "Documentos/" then "Documentos/" ++ stripped else stripped)
        "Documentos/" = true := by
  cases hs : startsWith stripped "Documentos/" with
  | true => simp [hs]
  | false =>
      simp only [Bool.not_false, if_true]
      exact (startsWith_iff _ _).mpr ⟨stripped.data, by simp [String.data_append]⟩

/-- What `normalizePath` computes for an input other than `''` and `'/'`. -/
theorem normalizePath_steps (input : String) (h1 : input ≠ "") (h2 : input ≠ "/") :
    normalizePath (some input) =
      if !endsWith
          (if !startsWith (stripLeadingSlash (trim input)) "Documentos/"
            then "Documentos/" ++ stripLeadingSlash (trim input)
            else stripLeadingSlash (trim input)) "/"
      then (if !startsWith (stripLeadingSlash (trim input)) "Documentos/"
            then "Documentos/" ++ stripLeadingSlash (trim input)
            else stripLeadingSlash (trim input)) ++ "/"
      else (if !startsWith (stripLeadingSlash (trim input)) "Documentos/"
            then "Documentos/" ++ stripLeadingSlash (trim input)
            else stripLeadingSlash (trim input)) := by
  simp only [normalizePath, stripLeadingSlash, h1, h2, or_self, if_false]

/-- Trimming a string of white space only gives the empty string. -/
theorem trim_of_spaces (s : String) (h : ∀ c ∈ s.data, RealtimeSync.isJsSpace c = true) :
    trim s = "" := by
  unfold trim
  have : s.data.dropWhile RealtimeSync.isJsSpace = [] := List.dropWhile_eq_nil_iff.mpr h
  rw [this]
  rfl

/-- Trimming changes nothing in a string that starts with `Documentos/` and
ends with `/`. -/
theorem trim_of_shape (s : String) (hstart : startsWith s "Documentos/" = true)
    (hend : endsWith s "/" = true) : trim s = s := by
  obtain ⟨rest, hrest⟩ := (startsWith_iff _ _).mp hstart
  obtain ⟨init, hinit⟩ := (endsWith_iff _ _).mp hend
  have hD : "Documentos/".data = 'D' :: "ocumentos/".data := rfl
  have hS : "/".data = ['/'] := rfl
  have h1 : s.data.dropWhile RealtimeSync.isJsSpace = s.data := by
    rw [hrest, hD, List.cons_append]
    exact List.dropWhile_cons_of_neg (by decide)
  have h2 : s.data.reverse.dropWhile RealtimeSync.isJsSpace = s.data.reverse := by
    rw [hinit, hS, List.reverse_append]
    exact List.dropWhile_cons_of_neg (by decide)
  unfold trim
  apply String.ext
  simp only [h1, h2, List.reverse_reverse]

/-- A string that starts with `Documentos/` does not start with `/`. -/
theorem not_startsWith_slash (s : String) (hstart : startsWith s "Documentos/" = true) :
    startsWith s "/" = false := by
  obtain ⟨rest, hrest⟩ := (startsWith_iff _ _).mp hstart
  have hD : "Documentos/".data = 'D' :: "ocumentos/".data := rfl
  have hS : "/".data = ['/'] := rfl
  unfold startsWith
  rw [hrest, hD, hS, List.cons_append]
  simp [List.isPrefixOf]

/-- The function `normalizePath` leaves a string that starts with
`Documentos/` and ends with `/` as it is. -/
theorem normalizePath_of_shape (s : String) (hstart : startsWith s "Documentos/" = true)
    (hend : endsWith s "/" = true) : normalizePath (some s) = s := by
  obtain ⟨rest, hrest⟩ := (startsWith_iff _ _).mp hstart
  have hD : "Documentos/".data = 'D' :: "ocumentos/".data := rfl
  have h1 : s ≠ "" := by
    intro h
    rw [h] at hrest
    simp [hD] at hrest
  have h2 : s ≠ "/" := by
    intro h
    rw [h] at hrest
    have hS : "/".data = ['/'] := rfl
    rw [hS, hD] at hrest
    simp at hrest
  rw [normalizePath_steps s h1 h2, trim_of_shape s hstart hend]
  simp [stripLeadingSlash, not_startsWith_slash s hstart, hstart, hend]

/-- The result of `normalizePath` starts with `Documentos/` and ends with
`/`. -/
theorem normalizePath_shape_aux (inputPath : Option String) :
    startsWith (normalizePath inputPath) "Documentos/" = true ∧
      endsWith (normalizePath inputPath) "/" = true := by
  cases inputPath with
  | none => exact ⟨by decide, by decide⟩
  | some input =>
      by_cases h1 : input = ""
      · subst h1; exact ⟨by decide, by decide⟩
      · by_cases h2 : input = "/"
        · subst h2; exact ⟨by decide, by decide⟩
        · rw [normalizePath_steps input h1 h2]
          exact finish_shape _ (prefixed_shape _)

end Server

namespace Server

/-- C28: for every input (a string, `null` or `undefined`), `normalizePath`
returns a string that starts with `Documentos/` and ends with `/`; it returns
exactly `Documentos/` for an empty, missing, white-space-only or `/` input;
and an input that already starts with `Documentos/` after trimming and
removing one leading `/` is not prefixed again: it is returned in that form,
with a `/` appended unless it ends with one. -/
theorem normalizePath_shape (inputPath : Option String) :
    startsWith (normalizePath inputPath) "Documentos/" = true ∧
      endsWith (normalizePath inputPath) "/" = true ∧
      normalizePath none = "Documentos/" ∧
      normalizePath (some "") = "Documentos/" ∧
      normalizePath (some "/") = "Documentos/" ∧
      (∀ s : String, (∀ c ∈ s.data, RealtimeSync.isJsSpace c = true) →
        normalizePath (some s) = "Documentos/") ∧
      (∀ s : String, startsWith (stripLeadingSlash (trim s)) "Documentos/" = true →
        normalizePath (some s) =
          if endsWith (stripLeadingSlash (trim s)) "/" then stripLeadingSlash (trim s)
          else stripLeadingSlash (trim s) ++ "/") := by
  refine ⟨(normalizePath_shape_aux inputPath).1, (normalizePath_shape_aux inputPath).2,
    by decide, by decide, by decide, ?_, ?_⟩
  · intro s hs
    by_cases h1 : s = ""
    · subst h1; decide
    · by_cases h2 : s = "/"
      · subst h2; decide
      · rw [normalizePath_steps s h1 h2, trim_of_spaces s hs]
        decide
  · intro s hs
    by_cases h1 : s = ""
    · subst h1; exact absurd hs (by decide)
    · by_cases h2 : s = "/"
      · subst h2; exact absurd hs (by decide)
      · rw [normalizePath_steps s h1 h2]
        simp only [hs, Bool.not_true, Bool.false_eq_true, if_false]
        cases endsWith (stripLeadingSlash (trim s)) "/" <;> simp

/-- Witness of C28: a white-space-only input, and an input that starts with
`Documentos/` once trimmed and stripped of its leading `/`. -/
theorem normalizePath_shape_witness :
    (∀ c ∈ (" \t ").data, RealtimeSync.isJsSpace c = true) ∧
      normalizePath (some " \t ") = "Documentos/" ∧
      startsWith (stripLeadingSlash (trim "  /Documentos/a/b ")) "Documentos/" = true ∧
      normalizePath (some "  /Documentos/a/b ") = "Documentos/a/b/" ∧
      normalizePath (some "relatorios/2024") = "Documentos/relatorios/2024/" :=
  have hspaces : ∀ c ∈ (" \t ").data, RealtimeSync.isJsSpace c = true := by decide
  have hstart : startsWith (stripLeadingSlash (trim "  /Documentos/a/b ")) "Documentos/"
      = true := by decide
  ⟨hspaces,
   (normalizePath_shape none).2.2.2.2.2.1 " \t " hspaces,
   hstart,
   ((normalizePath_shape none).2.2.2.2.2.2 "  /Documentos/a/b " hstart).trans (by decide),
   by decide⟩

/-- C29: `normalizePath` is idempotent: for every input `p`,
`normalizePath(normalizePath(p)) = normalizePath(p)`. -/
theorem normalizePath_idempotent (inputPath : Option String) :
    normalizePath (some (normalizePath inputPath)) = normalizePath inputPath :=
  normalizePath_of_shape _ (normalizePath_shape_aux inputPath).1
    (normalizePath_shape_aux inputPath).2

end Server
